import Mathlib

/-!
A verification development for the opcode backend kernel (the `src-tauri`
Rust crate).  The Rust data model and operations relevant to the MCP
transport, health monitor, session kernel, skills executor and task
manager are shallowly embedded as executable Lean definitions, and the
behavioural properties of interest are settled as theorems about those
definitions.

Modelling conventions, used throughout:
* `serde_json::Value` is embedded as the mutual inductive `Json` /
  `JsonFields` (objects as association lists); the fragment actually
  used by the embedded code (scalars and objects) is covered.
* Rust `String` values that are only stored and compared are embedded as
  Lean `String`; text that is *processed* (SSE reassembly) is processed
  over `List Char` (`String.data`) with explicitly defined, structurally
  recursive helpers, so that every definition evaluates inside the
  kernel.
* Timestamps (`chrono::DateTime<Utc>`, RFC3339 strings) are embedded as
  integers with their chronological order; `now` is passed explicitly.
* Network and subprocess effects are abstracted as explicit oracle
  parameters (a function giving the outcome of each interaction); the
  control flow deciding which interactions happen and how their results
  are combined is embedded faithfully from the source.
* Log statements, event-channel sends that no claim observes, and
  wall-clock duration measurements (`Instant::elapsed`, embedded as `0`)
  are dropped or fixed, as they carry no specified behaviour.
-/

namespace Opcode

/-! ## JSON values (`serde_json::Value`, scalar + object fragment) -/

mutual
/-- Embedding of `serde_json::Value`: scalars plus objects.  (Arrays are
not needed by any embedded operation.) -/
inductive Json where
  | null
  | bool (b : Bool)
  | num (n : Int)
  | str (s : String)
  | obj (fields : JsonFields)
  deriving Repr, DecidableEq
/-- Object fields of a `Json` value, as an association list. -/
inductive JsonFields where
  | nil
  | cons (key : String) (value : Json) (rest : JsonFields)
  deriving Repr, DecidableEq
end

/-- `Value::get(key)` on an object (association-list lookup). -/
def JsonFields.lookupKey : JsonFields → String → Option Json
  | .nil, _ => none
  | .cons k v rest, key => if k = key then some v else rest.lookupKey key

/-- `HashMap::insert` semantics on object fields: replace the binding
for the key if present, otherwise append it. -/
def JsonFields.insertKey : JsonFields → String → Json → JsonFields
  | .nil, key, val => .cons key val .nil
  | .cons k v rest, key, val =>
    if k = key then .cons key val rest else .cons k v (rest.insertKey key val)

/-- `Value::get(key)` (`None` on non-objects). -/
def Json.getKey : Json → String → Option Json
  | .obj fields, key => fields.lookupKey key
  | _, _ => none

/-- `Value::as_str`. -/
def Json.asStr : Json → Option String
  | .str s => some s
  | _ => none

/-! ## Character-list text helpers

Rust string processing (`str::find`, `str::lines`, `str::trim`,
`str::starts_with`, `str::contains`, `str::replace`) is embedded over
`List Char` so everything reduces in the kernel.  Each helper mirrors
the Rust function's documented semantics. -/

/-- If `pat` is a prefix of `s`, return the remainder, else `none`. -/
def dropPrefixChars : List Char → List Char → Option (List Char)
  | [], s => some s
  | _ :: _, [] => none
  | p :: ps, c :: cs => if p = c then dropPrefixChars ps cs else none

/-- Fuelled worker for `splitOnChars`: scans left to right, splitting at
each leftmost, non-overlapping occurrence of `sep` (the semantics of the
Rust `while let Some(i) = buffer.find(sep)` loop and of `str::split`). -/
def splitOnCharsAux (sep : List Char) : Nat → List Char → List Char → List (List Char)
  | _, acc, [] => [acc.reverse]
  | 0, acc, s => [acc.reverse ++ s]
  | fuel + 1, acc, c :: cs =>
    match dropPrefixChars sep (c :: cs) with
    | some rest => acc.reverse :: splitOnCharsAux sep fuel [] rest
    | none => splitOnCharsAux sep fuel (c :: acc) cs

/-- Split `s` on every leftmost non-overlapping occurrence of the
(non-empty) separator `sep`; the last element is the tail after the
final separator. -/
def splitOnChars (sep : List Char) (s : List Char) : List (List Char) :=
  splitOnCharsAux sep s.length [] s

/-- `str::contains(pat)` for a substring pattern. -/
def containsSubChars : List Char → List Char → Bool
  | [], pat => pat.isEmpty
  | c :: cs, pat => pat.isPrefixOf (c :: cs) || containsSubChars cs pat

/-- `str::contains` on `String`s. -/
def strContainsSub (s pat : String) : Bool :=
  containsSubChars s.data pat.data

/-- ASCII whitespace predicate (the whitespace actually occurring in SSE
streams; Rust `char::is_whitespace` restricted to ASCII). -/
def isWsChar (c : Char) : Bool :=
  c = ' ' || c = '\t' || c = '\n' || c = '\r'

/-- `str::trim`: drop leading and trailing whitespace. -/
def trimChars (s : List Char) : List Char :=
  ((s.dropWhile isWsChar).reverse.dropWhile isWsChar).reverse

/-- `str::lines`: split on `'\n'`, drop a final empty piece produced by a
trailing newline, and strip one trailing `'\r'` from each line. -/
def rustLines (s : List Char) : List (List Char) :=
  let parts := splitOnChars ['\n'] s
  let parts := if parts.getLast? = some [] then parts.dropLast else parts
  parts.map (fun l => if l.getLast? = some '\r' then l.dropLast else l)

/-- `str::replace(pat, rep)`: replace every leftmost non-overlapping
occurrence. -/
def replaceChars (s pat rep : List Char) : List Char :=
  List.intercalate rep (splitOnChars pat s)

/-- `str::replace` on `String`s. -/
def strReplace (s pat rep : String) : String :=
  String.mk (replaceChars s.data pat.data rep.data)

/-! ## MCP error taxonomy (`mcp/error.rs`, `McpError`) -/

/-- `McpError` (`mcp/error.rs`).  Variants not reachable from the
embedded operations are still listed, as the claims compare against
them. -/
inductive McpError where
  | connectionFailed (msg : String)
  | connectionTimeout (ms : Nat)
  | notConnected
  | transportError (msg : String)
  | protocolVersionMismatch (expected actual : String)
  | invalidResponse (msg : String)
  | jsonRpcError (code : Int) (message : String)
  | initializationFailed (msg : String)
  | authenticationFailed (msg : String)
  | tokenExpired
  | invalidCredentials
  | toolNotFound (msg : String)
  | healthCheckFailed (msg : String)
  | serializationError (msg : String)
  | deserializationError (msg : String)
  | invalidConfig (msg : String)
  | internal (msg : String)
  | cancelled
  deriving Repr, DecidableEq

/-! ## Auth policies (`mcp/auth.rs`) -/

/-- `McpBearerAuth` (`mcp/auth.rs`): bearer token with optional expiry
timestamp. -/
structure McpBearerAuth where
  token : String
  expiresAt : Option Int
  deriving Repr, DecidableEq

/-- `McpBearerAuth::is_expired`: `chrono::Utc::now() >= expires_at` when
an expiry is set, never expired otherwise. -/
def McpBearerAuth.isExpired (a : McpBearerAuth) (now : Int) : Bool :=
  match a.expiresAt with
  | some e => decide (now ≥ e)
  | none => false

/-- `McpAuth::is_valid` for `McpBearerAuth`: `!self.is_expired()`. -/
def McpBearerAuth.isValid (a : McpBearerAuth) (now : Int) : Bool :=
  !(a.isExpired now)

/-- The four auth mechanisms implementing the `McpAuth` trait
(`McpBearerAuth`, `McpApiKeyAuth`, `McpCustomHeadersAuth`, `McpNoAuth`),
embedded as one sum. -/
inductive McpAuth where
  | bearer (b : McpBearerAuth)
  | apiKey (headerName value : String) (pfx : Option String)
  | customHeaders (headers : List (String × String))
  | noAuth
  deriving Repr, DecidableEq

/-- `McpAuth::is_valid`: bearer delegates to the expiry check; the other
three mechanisms are always valid. -/
def McpAuth.isValid : McpAuth → Int → Bool
  | .bearer b, now => b.isValid now
  | .apiKey _ _ _, _ => true
  | .customHeaders _, _ => true
  | .noAuth, _ => true

/-! ## Transport `connect` handshake (`mcp/streamable_http.rs`) -/

deriving instance DecidableEq for Except

/-- The part of `InitializeResult` the handshake inspects. -/
structure InitializeResult where
  protocolVersion : String
  deriving Repr, DecidableEq

/-- Outcomes of the two network interactions `connect` can make, in
order: the `initialize` request and the `notifications/initialized`
notification.  (An oracle for the remote server.) -/
structure ConnectNet where
  initializeOutcome : Except McpError InitializeResult
  initializedNotifyOutcome : Except McpError Unit

/-- Observable outcome of `connect`: its return value, how many HTTP
requests it issued, and the final `connected` flag. -/
structure ConnectOutcome where
  result : Except McpError Unit
  httpRequestsIssued : Nat
  connected : Bool
  deriving Repr, DecidableEq

/-- The handshake performed after the auth-validity gate
(`streamable_http.rs` `connect`, after line 257): `initialize` (one HTTP
request), then the `notifications/initialized` notification (a second
request), then `connected := true`.  A protocol-version mismatch in the
`initialize` result is only logged (`initialize`, lines 319-325) and
never aborts, so the result version is not inspected here. -/
def connectAfterAuth (net : ConnectNet) : ConnectOutcome :=
  match net.initializeOutcome with
  | .error e => { result := .error e, httpRequestsIssued := 1, connected := false }
  | .ok _ =>
    match net.initializedNotifyOutcome with
    | .error e => { result := .error e, httpRequestsIssued := 2, connected := false }
    | .ok _ => { result := .ok (), httpRequestsIssued := 2, connected := true }

/-- `StreamableHttpTransport::connect` (`streamable_http.rs` lines
249-277): if an auth mechanism is configured and `is_valid` is false at
the time of call, return `Err(McpError::TokenExpired)` before any
network interaction; otherwise run the handshake. -/
def connect (auth : Option McpAuth) (now : Int) (net : ConnectNet) : ConnectOutcome :=
  match auth with
  | some a =>
    if !(a.isValid now) then
      { result := .error .tokenExpired, httpRequestsIssued := 0, connected := false }
    else connectAfterAuth net
  | none => connectAfterAuth net

/-! ## JSON-RPC wire types and SSE reassembly
(`mcp/types.rs`, `mcp/streamable_http.rs`) -/

/-- `JsonRpcError` payload of a JSON-RPC response. -/
structure JsonRpcErrorPayload where
  code : Int
  message : String
  deriving Repr, DecidableEq

/-- `JsonRpcResponse` (`mcp/types.rs`): `id` is an opaque scalar
preserved verbatim; exactly one of `result`/`error` is present in a
well-formed response. -/
structure JsonRpcResponse where
  id : Json
  result : Option Json
  error : Option JsonRpcErrorPayload
  deriving Repr, DecidableEq

/-- `SseEvent` (`mcp/types.rs`): one reassembled SSE frame. -/
structure SseEvent where
  event : Option String
  data : String
  id : Option String
  deriving Repr, DecidableEq

/-- Line-classification loop of
`StreamableHttpTransport::parse_sse_event` (`streamable_http.rs` lines
226-237): `event:` lines set the event name, `data:` lines are trimmed
and concatenated with `'\n'`, `id:` lines set the id; other lines are
ignored. -/
def parseSseLines : List (List Char) → Option (List Char) → List Char →
    Option (List Char) → Option (List Char) × List Char × Option (List Char)
  | [], ev, data, id => (ev, data, id)
  | line :: rest, ev, data, id =>
    if "event:".data.isPrefixOf line then
      parseSseLines rest (some (trimChars (line.drop 6))) data id
    else if "data:".data.isPrefixOf line then
      let d := trimChars (line.drop 5)
      parseSseLines rest ev (if data.isEmpty then d else data ++ '\n' :: d) id
    else if "id:".data.isPrefixOf line then
      parseSseLines rest ev data (some (trimChars (line.drop 3)))
    else
      parseSseLines rest ev data id

/-- `StreamableHttpTransport::parse_sse_event` (`streamable_http.rs`
lines 221-244): classify the frame's lines, drop frames with empty
`data`. -/
def parseSseEvent (text : List Char) : Option SseEvent :=
  match parseSseLines (rustLines text) none [] none with
  | (ev, data, id) =>
    if data.isEmpty then none
    else some { event := ev.map String.mk, data := String.mk data, id := id.map String.mk }

/-- Frame extraction of `handle_sse_response` (`streamable_http.rs`
lines 196-215): the chunks are concatenated into a sliding buffer and
complete events are cut at every `"\n\n"`; whatever remains after the
stream ends (the last piece) is discarded.  The whole byte stream is
taken here as one `List Char` — the per-chunk loop only concatenates, so
chunk boundaries are immaterial. -/
def sseFrames (stream : List Char) : List (List Char) :=
  (splitOnChars ['\n', '\n'] stream).dropLast

/-- Frame-selection fold of `handle_sse_response` (`streamable_http.rs`
lines 206-213): each frame is parsed as an SSE event, its `data` is
parsed as a `JsonRpcResponse` (serde parsing abstracted as `parse`), and
a response whose `id` equals the request's id *overwrites* the held
result.  Mismatched ids and unparsable payloads are skipped. -/
def sseSelectResponse (parse : String → Option JsonRpcResponse) (requestId : Json)
    (frames : List (List Char)) : Option JsonRpcResponse :=
  frames.foldl
    (fun acc frame =>
      match parseSseEvent frame with
      | none => acc
      | some ev =>
        match parse ev.data with
        | none => acc
        | some resp => if resp.id = requestId then some resp else acc)
    none

/-- `StreamableHttpTransport::handle_sse_response` (`streamable_http.rs`
lines 187-218): reassemble frames, select a response by id, and fail
with `InvalidResponse` when no frame matched. -/
def handleSseResponse (parse : String → Option JsonRpcResponse) (stream : String)
    (requestId : Json) : Except McpError JsonRpcResponse :=
  match sseSelectResponse parse requestId (sseFrames stream.data) with
  | some r => .ok r
  | none => .error (.invalidResponse "No result in SSE stream")

/-- `StreamableHttpTransport::handle_response` (`streamable_http.rs`
lines 133-184): branch on HTTP status and content type.  serde parsing
of a JSON body is the same abstracted `parse`; a body that fails to
decode surfaces as a transport error (the `reqwest::Error` conversion
for a decode failure). -/
def handleResponse (parse : String → Option JsonRpcResponse) (status : Nat)
    (contentType : String) (body : String) (requestId : Json) :
    Except McpError JsonRpcResponse :=
  if status = 200 ∨ status = 202 then
    if strContainsSub contentType "text/event-stream" then
      handleSseResponse parse body requestId
    else
      match parse body with
      | none => .error (.transportError "error decoding response body")
      | some json =>
        match json.error with
        | some e => .error (.jsonRpcError e.code e.message)
        | none => .ok json
  else if status = 401 then .error (.authenticationFailed "Unauthorized")
  else if status = 404 then .error (.connectionFailed "Endpoint not found")
  else if status = 400 then .error (.invalidResponse ("Bad request: " ++ body))
  else .error (.transportError ("HTTP " ++ toString status ++ ": " ++ body))

/-- What one frame contributes to the selection: `some resp` when the
frame parses as an SSE event whose `data` parses to a response carrying
the request's id, else `none`. -/
def ssePick (parse : String → Option JsonRpcResponse) (requestId : Json)
    (frame : List Char) : Option JsonRpcResponse :=
  match parseSseEvent frame with
  | none => none
  | some ev =>
    match parse ev.data with
    | none => none
    | some resp => if resp.id = requestId then some resp else none

/-- The matching responses of a stream, in frame order (the reference
list the selection fold is compared against): frames parsed as SSE
events whose `data` parses to a response with the request's id. -/
def sseMatchingResponses (parse : String → Option JsonRpcResponse) (requestId : Json)
    (stream : String) : List JsonRpcResponse :=
  (sseFrames stream.data).filterMap (ssePick parse requestId)

/-- A two-payload concrete stand-in for serde parsing, used to exercise
the SSE selection on a stream with two frames matching the same id. -/
def parseTwo : String → Option JsonRpcResponse := fun s =>
  if s = "A" then some { id := .num 2, result := some (.str "first"), error := none }
  else if s = "B" then some { id := .num 2, result := some (.str "second"), error := none }
  else none

/-! ## Health monitor (`mcp/health.rs`) -/

/-- `HealthStatus` (`mcp/health.rs`). -/
inductive HealthStatus where
  | healthy
  | degraded
  | unhealthy
  | unknown
  deriving Repr, DecidableEq

/-- `ServerHealth` (`mcp/health.rs`): per-server health record.
`last_check` (an RFC3339 string in the source) is embedded as the
integer timestamp it renders. -/
structure ServerHealth where
  serverId : String
  status : HealthStatus
  latencyMs : Option Nat
  lastCheck : Option Int
  lastError : Option String
  consecutiveFailures : Nat
  consecutiveSuccesses : Nat
  avgLatencyMs : Option Nat
  deriving Repr, DecidableEq

/-- `ServerHealth::new`. -/
def ServerHealth.new (serverId : String) : ServerHealth :=
  { serverId := serverId
    status := .unknown
    latencyMs := none
    lastCheck := none
    lastError := none
    consecutiveFailures := 0
    consecutiveSuccesses := 0
    avgLatencyMs := none }

/-- `ServerHealth::record_success` (`health.rs` lines 76-97): mark
healthy, record the sample, reset failures, bump successes, fold the
sample into the `u64` moving average `(avg * 4 + latency) / 5` (or start
it at the sample), then flag `Degraded` when the sample exceeds both
twice the (new) average and 1000 ms. -/
def ServerHealth.recordSuccess (h : ServerHealth) (latencyMs : Nat) (now : Int) :
    ServerHealth :=
  let h := { h with
    status := HealthStatus.healthy
    latencyMs := some latencyMs
    lastCheck := some now
    lastError := none
    consecutiveFailures := 0
    consecutiveSuccesses := h.consecutiveSuccesses + 1 }
  let h := { h with
    avgLatencyMs := some (match h.avgLatencyMs with
      | some avg => (avg * 4 + latencyMs) / 5
      | none => latencyMs) }
  match h.avgLatencyMs with
  | some avg =>
    if latencyMs > avg * 2 && latencyMs > 1000 then
      { h with status := HealthStatus.degraded }
    else h
  | none => h

/-- The average after folding one sample into a `ServerHealth` record:
the integer exponential moving average with weight 4/5 on the prior
average and 1/5 on the sample, or the sample itself when no prior
average exists (the arithmetic of `record_success`). -/
def emaNext (h : ServerHealth) (latencyMs : Nat) : Nat :=
  match h.avgLatencyMs with
  | some avg => (avg * 4 + latencyMs) / 5
  | none => latencyMs

/-- `ServerHealth::record_failure` (`health.rs` lines 99-106). -/
def ServerHealth.recordFailure (h : ServerHealth) (error : String) (now : Int) :
    ServerHealth :=
  { h with
    status := HealthStatus.unhealthy
    latencyMs := none
    lastCheck := some now
    lastError := some error
    consecutiveFailures := h.consecutiveFailures + 1
    consecutiveSuccesses := 0 }

/-- `HealthEvent` (`health.rs`). -/
inductive HealthEvent where
  | statusChanged (serverId : String) (oldStatus newStatus : HealthStatus)
  | checkCompleted (serverId : String) (health : ServerHealth)
  | serverUnreachable (serverId : String) (consecutiveFailures : Nat)
  | serverRecovered (serverId : String)
  deriving Repr, DecidableEq

/-- One sample of `McpHealthMonitor::check_server_health` (`health.rs`
lines 193-264) on an existing health entry: the probe
(`transport.ping()` plus its measured latency) is the oracle argument.
Returns the updated entry and the events emitted for this sample, in
emission order: `ServerRecovered`/`ServerUnreachable` first, then
`StatusChanged` when the status moved, then `CheckCompleted`.  The
background loop of `start_monitoring` (lines 342-418) applies the same
per-sample logic with an endpoint probe. -/
def checkServerHealth (unreachableThreshold : Nat) (h : ServerHealth)
    (probe : Except String Nat) (now : Int) : ServerHealth × List HealthEvent :=
  let oldStatus := h.status
  let (h, probeEvents) :=
    match probe with
    | .ok latency =>
      let h := h.recordSuccess latency now
      if oldStatus = HealthStatus.unhealthy ∧ h.status = HealthStatus.healthy then
        (h, [HealthEvent.serverRecovered h.serverId])
      else (h, [])
    | .error e =>
      let h := h.recordFailure e now
      if h.consecutiveFailures ≥ unreachableThreshold then
        (h, [HealthEvent.serverUnreachable h.serverId h.consecutiveFailures])
      else (h, [])
  let statusEvents :=
    if oldStatus ≠ h.status then
      [HealthEvent.statusChanged h.serverId oldStatus h.status]
    else []
  (h, probeEvents ++ statusEvents ++ [HealthEvent.checkCompleted h.serverId h])

/-- Count the `ServerUnreachable` events in an event list. -/
def countUnreachable (events : List HealthEvent) : Nat :=
  events.countP (fun e =>
    match e with
    | .serverUnreachable _ _ => true
    | _ => false)

/-- Run a sequence of probe samples through `check_server_health`,
collecting all emitted events (the behaviour of successive monitor
ticks on one server). -/
def runHealthSamples (unreachableThreshold : Nat) :
    ServerHealth → List (Except String Nat × Int) → ServerHealth × List HealthEvent
  | h, [] => (h, [])
  | h, (probe, now) :: rest =>
    let (h', events) := checkServerHealth unreachableThreshold h probe now
    let (hFinal, laterEvents) := runHealthSamples unreachableThreshold h' rest
    (hFinal, events ++ laterEvents)

/-! ## Session kernel (`session/state.rs`, `session/manager.rs`)

`SessionState`'s event channel, timestamps, initial prompt, token
counters and metadata map carry no behaviour any claim observes and are
omitted from the record; the status/pid/error fields and every setter
acting on them are embedded exactly.  The `DashMap`s are embedded as
association lists with unique keys. -/

/-- `SessionStatus` (`session/state.rs`). -/
inductive SessionStatus where
  | initializing
  | running
  | paused
  | completed
  | cancelled
  | failed
  | terminating
  deriving Repr, DecidableEq

/-- The claim-relevant fields of `SessionState` (`session/state.rs`). -/
structure SessionState where
  id : String
  projectPath : String
  status : SessionStatus
  model : String
  pid : Option Nat
  errorMessage : Option String
  deriving Repr, DecidableEq

/-- `SessionState::new`. -/
def SessionState.new (id projectPath model : String) : SessionState :=
  { id := id
    projectPath := projectPath
    status := .initializing
    model := model
    pid := none
    errorMessage := none }

/-- `SessionState::set_status` (also emits a `StatusChanged` event and
touches `last_activity`, both unobserved here). -/
def SessionState.setStatus (s : SessionState) (status : SessionStatus) : SessionState :=
  { s with status := status }

/-- `SessionState::set_running`: record the pid, then `set_status(Running)`. -/
def SessionState.setRunning (s : SessionState) (pid : Nat) : SessionState :=
  ({ s with pid := some pid }).setStatus .running

/-- `SessionState::set_completed`. -/
def SessionState.setCompleted (s : SessionState) : SessionState :=
  ({ s with pid := none }).setStatus .completed

/-- `SessionState::set_failed`. -/
def SessionState.setFailed (s : SessionState) (error : String) : SessionState :=
  ({ s with errorMessage := some error, pid := none }).setStatus .failed

/-- `SessionState::set_cancelled`. -/
def SessionState.setCancelled (s : SessionState) : SessionState :=
  ({ s with pid := none }).setStatus .cancelled

/-- `SessionState::is_terminal`. -/
def SessionState.isTerminal (s : SessionState) : Bool :=
  match s.status with
  | .completed | .cancelled | .failed => true
  | _ => false

/-- `SessionError` (`session/manager.rs`). -/
inductive SessionError where
  | sessionNotFound (id : String)
  | sessionExists (id : String)
  | maxSessionsReached (limit : Nat)
  | sessionNotActive (id : String)
  | processError (msg : String)
  | ioError (msg : String)
  deriving Repr, DecidableEq

/-- `SessionManager` state: the `sessions` and `processes` maps (a
managed process reduced to its pid; child handle, kill switch and reader
tasks are resources with no claim-observable state) and the capacity
limit (`max_sessions`, default 10). -/
structure ManagerState where
  sessions : List (String × SessionState)
  processes : List (String × Nat)
  maxSessions : Nat
  deriving Repr, DecidableEq

/-- `SessionManager::new` (`max_sessions = 10`). -/
def ManagerState.new : ManagerState :=
  { sessions := [], processes := [], maxSessions := 10 }

/-- `SessionManager::with_limits` (the stale-session timeout argument
is unobserved here). -/
def ManagerState.withLimits (maxSessions : Nat) : ManagerState :=
  { sessions := [], processes := [], maxSessions := maxSessions }

/-- `DashMap::get_mut` + in-place mutation: rewrite the entry with the
given key. -/
def updateEntry (entries : List (String × SessionState)) (id : String)
    (f : SessionState → SessionState) : List (String × SessionState) :=
  entries.map (fun p => if p.1 = id then (p.1, f p.2) else p)

/-- `DashMap::remove` by key. -/
def removeEntry {α : Type} (entries : List (String × α)) (id : String) :
    List (String × α) :=
  entries.filter (fun p => p.1 ≠ id)

/-- `SessionManager::cleanup_terminal_sessions` (`manager.rs` lines
297-308): collect the ids of terminal sessions, then remove each from
both maps. -/
def cleanupTerminalSessions (st : ManagerState) : ManagerState :=
  let terminalIds := (st.sessions.filter (fun p => p.2.isTerminal)).map (·.1)
  { st with
    sessions := st.sessions.filter (fun p => !(terminalIds.contains p.1))
    processes := st.processes.filter (fun p => !(terminalIds.contains p.1)) }

/-- `SessionManager::create_session` (`manager.rs` lines 149-177): at
capacity, first run a terminal-session cleanup pass and re-check; only
then check for a duplicate id; finally insert a fresh `Initializing`
session. -/
def createSession (st : ManagerState) (sessionId projectPath model : String) :
    Except SessionError String × ManagerState :=
  let st := if st.sessions.length ≥ st.maxSessions then cleanupTerminalSessions st else st
  if st.sessions.length ≥ st.maxSessions then
    (.error (.maxSessionsReached st.maxSessions), st)
  else if (st.sessions.lookup sessionId).isSome then
    (.error (.sessionExists sessionId), st)
  else
    (.ok sessionId,
     { st with sessions :=
        st.sessions ++ [(sessionId, SessionState.new sessionId projectPath model)] })

/-- `SessionManager::register_process` (`manager.rs` lines 195-208):
mark the session running with the process pid, or fail with
`SessionNotFound`; then store the process handle. -/
def registerProcess (st : ManagerState) (sessionId : String) (pid : Nat) :
    Except SessionError Unit × ManagerState :=
  match st.sessions.lookup sessionId with
  | some _ =>
    (.ok (),
     { st with
        sessions := updateEntry st.sessions sessionId (fun s => s.setRunning pid)
        processes := st.processes ++ [(sessionId, pid)] })
  | none => (.error (.sessionNotFound sessionId), st)

/-- First phase of `SessionManager::cancel_session` (`manager.rs` lines
214-224), up to the `await` on process shutdown: set the session's
status to `Terminating` when it exists, and take the process entry out
of the map.  The state at this point is observable while the graceful
5-second shutdown is in flight. -/
def cancelSessionPhase1 (st : ManagerState) (sessionId : String) : ManagerState :=
  { st with
    sessions := updateEntry st.sessions sessionId (fun s => s.setStatus .terminating)
    processes := removeEntry st.processes sessionId }

/-- Second phase of `SessionManager::cancel_session` (`manager.rs` lines
226-229): mark the session cancelled when it exists. -/
def cancelSessionPhase2 (st : ManagerState) (sessionId : String) : ManagerState :=
  { st with sessions := updateEntry st.sessions sessionId (fun s => s.setCancelled) }

/-- `SessionManager::cancel_session` (`manager.rs` lines 211-232): both
phases; shutdown errors are only logged, and the function returns
`Ok(())` unconditionally — also when no session with this id exists. -/
def cancelSession (st : ManagerState) (sessionId : String) :
    Except SessionError Unit × ManagerState :=
  (.ok (), cancelSessionPhase2 (cancelSessionPhase1 st sessionId) sessionId)

/-- `SessionManager::kill_session` (`manager.rs` lines 235-249): remove
and kill the process, mark the session cancelled when it exists; always
`Ok(())`. -/
def killSession (st : ManagerState) (sessionId : String) :
    Except SessionError Unit × ManagerState :=
  (.ok (),
   { st with
      processes := removeEntry st.processes sessionId
      sessions := updateEntry st.sessions sessionId (fun s => s.setCancelled) })

/-- `SessionManager::complete_session` (`manager.rs` lines 252-263). -/
def completeSession (st : ManagerState) (sessionId : String) :
    Except SessionError Unit × ManagerState :=
  let st := { st with processes := removeEntry st.processes sessionId }
  match st.sessions.lookup sessionId with
  | some _ =>
    (.ok (), { st with sessions := updateEntry st.sessions sessionId (fun s => s.setCompleted) })
  | none => (.error (.sessionNotFound sessionId), st)

/-- `SessionManager::fail_session` (`manager.rs` lines 266-277). -/
def failSession (st : ManagerState) (sessionId : String) (error : String) :
    Except SessionError Unit × ManagerState :=
  let st := { st with processes := removeEntry st.processes sessionId }
  match st.sessions.lookup sessionId with
  | some _ =>
    (.ok (),
     { st with sessions := updateEntry st.sessions sessionId (fun s => s.setFailed error) })
  | none => (.error (.sessionNotFound sessionId), st)

/-- Manager states reachable through the manager's operations (create,
register-process, cancel — whose two phases straddle an `await` and are
therefore separately observable steps — kill, complete, fail), starting
from a fresh manager with any capacity. -/
inductive Reachable : ManagerState → Prop where
  | init (maxSessions : Nat) :
      Reachable { sessions := [], processes := [], maxSessions := maxSessions }
  | create (st : ManagerState) (id path model : String) :
      Reachable st → Reachable (createSession st id path model).2
  | register (st : ManagerState) (id : String) (pid : Nat) :
      Reachable st → Reachable (registerProcess st id pid).2
  | cancelBegin (st : ManagerState) (id : String) :
      Reachable st → Reachable (cancelSessionPhase1 st id)
  | cancelEnd (st : ManagerState) (id : String) :
      Reachable st → Reachable (cancelSessionPhase2 st id)
  | kill (st : ManagerState) (id : String) :
      Reachable st → Reachable (killSession st id).2
  | complete (st : ManagerState) (id : String) :
      Reachable st → Reachable (completeSession st id).2
  | fail (st : ManagerState) (id : String) (error : String) :
      Reachable st → Reachable (failSession st id error).2

/-- The pid/status relation that actually holds in every reachable
manager state: a recorded pid implies the status is `Running`, `Paused`
or `Terminating`, and status `Running` implies a recorded pid.  (The
converse for `Terminating` fails: cancelling a session that never had a
process registered passes through `Terminating` with no pid.) -/
def pidStatusOk (s : SessionState) : Prop :=
  (s.pid.isSome = true →
    s.status = .running ∨ s.status = .paused ∨ s.status = .terminating) ∧
  (s.status = .running → s.pid.isSome = true)

/-! ## Skills (`skills/types.rs`, `skills/executor.rs`)

Skill metadata, timestamps, and the loader are not touched by any
claim; subprocess execution (`run_shell_command`) and the recursive
executor invocation made by a `SkillRef` workflow step are abstracted as
oracles in `StepEffects`.  Wall-clock durations are embedded as `0`. -/

mutual
/-- `serde_json::Value::to_string` (compact rendering), used when a
non-string variable value is substituted into a prompt or template. -/
def Json.render : Json → String
  | .null => "null"
  | .bool b => if b then "true" else "false"
  | .num n => toString n
  | .str s => "\"" ++ s ++ "\""
  | .obj fs => "\x7b" ++ JsonFields.render fs ++ "\x7d"
/-- Object-field rendering for `Json.render`. -/
def JsonFields.render : JsonFields → String
  | .nil => ""
  | .cons k v .nil => "\"" ++ k ++ "\":" ++ Json.render v
  | .cons k v rest => "\"" ++ k ++ "\":" ++ Json.render v ++ "," ++ JsonFields.render rest
end

/-- The `Value::String(s) => s.clone(), other => other.to_string()`
stringification of a context variable. -/
def jsonToVarString : Json → String
  | .str s => s
  | other => other.render

/-- `SkillKind` (`skills/types.rs`). -/
inductive SkillKind where
  | slashCommand
  | hook
  | workflow
  | template
  | agent
  deriving Repr, DecidableEq

/-- `SkillVisibility` (`skills/types.rs`). -/
inductive SkillVisibility where
  | globalScope
  | projectScope
  | workspaceScope
  deriving Repr, DecidableEq

/-- `WorkflowStepKind` (`skills/types.rs`). -/
inductive WorkflowStepKind where
  | prompt
  | tool
  | shell
  | condition
  | parallel
  | userInput
  | skillRef
  deriving Repr, DecidableEq

/-- `WorkflowStep` (`skills/types.rs`): `config` is a free-form
`serde_json::Value`.  The `retry` block is never read by the executor
(`retries` is always reported as 0) and is omitted. -/
structure WorkflowStep where
  id : String
  kind : WorkflowStepKind
  name : String
  config : Json
  dependsOn : List String
  condition : Option String
  timeoutSecs : Option Nat
  deriving Repr, DecidableEq

/-- `StepResult` (`skills/types.rs`). -/
structure StepResult where
  stepId : String
  stepName : String
  success : Bool
  output : Option Json
  error : Option String
  durationMs : Nat
  retries : Nat
  deriving Repr, DecidableEq

/-- `SkillResult` (`skills/types.rs`). -/
structure SkillResult where
  success : Bool
  output : Option Json
  error : Option String
  durationMs : Nat
  steps : Option (List StepResult)
  deriving Repr, DecidableEq

/-- `SlashCommandConfig` (`skills/types.rs`), claim-relevant fields. -/
structure SlashCommandConfig where
  name : String
  description : String
  prompt : String
  requiresArgs : Bool
  deriving Repr, DecidableEq

/-- `HookConfig` (`skills/types.rs`); the trigger is kept as its
lowercase string form (the registry indexes hooks by that string). -/
structure HookConfig where
  trigger : String
  command : String
  timeoutSecs : Nat
  canBlock : Bool
  env : List (String × String)
  deriving Repr, DecidableEq

/-- `WorkflowConfig` (`skills/types.rs`); `inputs`/`outputs` are never
read by the executor and are omitted, and `max_parallel` is declared but
unused in the source. -/
structure WorkflowConfig where
  steps : List WorkflowStep
  timeoutSecs : Option Nat
  maxParallel : Option Nat
  deriving Repr, DecidableEq

/-- `TemplateVariable` (`skills/types.rs`). -/
structure TemplateVariable where
  name : String
  description : String
  default : Option String
  deriving Repr, DecidableEq

/-- `TemplateConfig` (`skills/types.rs`); the `variables` field is
named `vars` (`variables` is a reserved word in Lean). -/
structure TemplateConfig where
  content : String
  vars : List TemplateVariable
  deriving Repr, DecidableEq

/-- `AgentConfig` (`skills/types.rs`). -/
structure AgentConfig where
  name : String
  systemPrompt : String
  model : String
  permissionMode : String
  allowedTools : List String
  deniedTools : List String
  mcpServers : List String
  maxTurns : Option Nat
  deriving Repr, DecidableEq

/-- `SkillConfig` (`skills/types.rs`): one optional payload per kind. -/
structure SkillConfig where
  slashCommand : Option SlashCommandConfig
  hook : Option HookConfig
  workflow : Option WorkflowConfig
  template : Option TemplateConfig
  agent : Option AgentConfig
  deriving Repr, DecidableEq

/-- `Skill` (`skills/types.rs`), claim-relevant fields (metadata and
timestamps omitted). -/
structure Skill where
  id : String
  kind : SkillKind
  name : String
  description : String
  visibility : SkillVisibility
  enabled : Bool
  config : SkillConfig
  projectPath : Option String
  source : String
  deriving Repr, DecidableEq

/-- `SkillContext` (`skills/types.rs`); the `variables` field is named
`vars` (`variables` is a reserved word in Lean). -/
structure SkillContext where
  projectPath : String
  sessionId : Option String
  arguments : JsonFields
  env : List (String × String)
  vars : JsonFields
  deriving Repr, DecidableEq

/-- Effect oracles for the executor: `run_shell_command` (`executor.rs`
lines 485-522; arguments: command, working directory, timeout seconds,
environment; result: stdout, stderr, exit code, or a spawn/timeout
error string) and the recursive `self.execute` call a `SkillRef` step
makes. -/
structure StepEffects where
  runShell : String → String → Nat → List (String × String) →
    Except String (String × String × Int)
  execSkillById : String → SkillResult

/-- A failed `SkillResult` with only an error message (the shape every
early-return in the executor produces). -/
def SkillResult.failWith (msg : String) : SkillResult :=
  { success := false, output := none, error := some msg, durationMs := 0, steps := none }

/-- `SkillExecutor::execute_slash_command` (`executor.rs` lines
117-164): replace `$ARGUMENTS` with the stringified `ARGUMENTS`
argument, then each `$\x7bname\x7d` placeholder with the matching
context variable; report the expanded prompt and command name. -/
def executeSlashCommand (skill : Skill) (ctx : SkillContext) : SkillResult :=
  match skill.config.slashCommand with
  | none => .failWith "Invalid slash command configuration"
  | some cmd =>
    let prompt := cmd.prompt
    let prompt :=
      match ctx.arguments.lookupKey "ARGUMENTS" with
      | some args => strReplace prompt "$ARGUMENTS" ((args.asStr).getD "")
      | none => prompt
    let prompt := replaceVariables prompt ctx.vars
    { success := true
      output := some (.obj (.cons "prompt" (.str prompt) (.cons "command" (.str cmd.name) .nil)))
      error := none
      durationMs := 0
      steps := none }
where
  /-- The `for (key, value) in &context.variables` replacement loop
  (`executor.rs` lines 143-150); `HashMap` iteration order is embedded
  as association-list order. -/
  replaceVariables (prompt : String) : JsonFields → String
    | .nil => prompt
    | .cons key val rest =>
      replaceVariables (strReplace prompt ("$\x7b" ++ key ++ "\x7d") (jsonToVarString val)) rest

/-- `SkillExecutor::execute_hook` (`executor.rs` lines 167-216): run the
configured command in a subshell; success iff the exit code is 0, with
stderr as the error message on failure. -/
def executeHook (fx : StepEffects) (skill : Skill) (ctx : SkillContext) : SkillResult :=
  match skill.config.hook with
  | none => .failWith "Invalid hook configuration"
  | some hook =>
    match fx.runShell hook.command ctx.projectPath hook.timeoutSecs hook.env with
    | .ok (stdout, stderr, exitCode) =>
      let success := exitCode = 0
      { success := success
        output := some (.obj (.cons "stdout" (.str stdout)
          (.cons "stderr" (.str stderr) (.cons "exit_code" (.num exitCode) .nil))))
        error := if success then none else some stderr
        durationMs := 0
        steps := none }
    | .error e => .failWith e

/-- `SkillExecutor::execute_workflow_step` (`executor.rs` lines
320-398).  The `completed` map and `variables` map are passed in the
source but never read or written by this function. -/
def executeWorkflowStep (fx : StepEffects) (ctx : SkillContext) (step : WorkflowStep) :
    StepResult :=
  let res : Bool × Option Json × Option String :=
    match step.kind with
    | .shell =>
      let command := ((step.config.getKey "command").bind Json.asStr).getD ""
      match fx.runShell command ctx.projectPath (step.timeoutSecs.getD 60) ctx.env with
      | .ok (stdout, stderr, code) =>
        let success := code = 0
        (success,
         some (.obj (.cons "stdout" (.str stdout)
           (.cons "stderr" (.str stderr) (.cons "exit_code" (.num code) .nil)))),
         if success then none else some stderr)
      | .error e => (false, none, some e)
    | .prompt =>
      let prompt := ((step.config.getKey "prompt").bind Json.asStr).getD ""
      (true, some (.obj (.cons "prompt" (.str prompt) .nil)), none)
    | .skillRef =>
      let skillId := ((step.config.getKey "skill_id").bind Json.asStr).getD ""
      let result := fx.execSkillById skillId
      (result.success, result.output, result.error)
    | _ => (true, none, none)
  { stepId := step.id
    stepName := step.name
    success := res.1
    output := res.2.1
    error := res.2.2
    durationMs := 0
    retries := 0 }

/-- The step result recorded for a step whose dependencies have no
recorded output (`executor.rs` lines 267-275). -/
def depsNotMetResult (step : WorkflowStep) : StepResult :=
  { stepId := step.id
    stepName := step.name
    success := false
    output := none
    error := some "Dependencies not met"
    durationMs := 0
    retries := 0 }

/-- The step loop of `SkillExecutor::execute_workflow` (`executor.rs`
lines 259-296): for each step in declared order, record a
"Dependencies not met" failure and `continue` when some `depends_on` id
has no recorded output; otherwise execute the step, record its output
into `completed` on success, and `break` after the first executed step
that fails. -/
def workflowLoop (runStep : WorkflowStep → StepResult) :
    List WorkflowStep → JsonFields → List StepResult × JsonFields
  | [], completed => ([], completed)
  | step :: rest, completed =>
    if step.dependsOn.all (fun dep => (completed.lookupKey dep).isSome) then
      let r := runStep step
      let completed' :=
        if r.success then
          match r.output with
          | some out => completed.insertKey step.id out
          | none => completed
        else completed
      if r.success then
        let tail := workflowLoop runStep rest completed'
        (r :: tail.1, tail.2)
      else ([r], completed')
    else
      let tail := workflowLoop runStep rest completed
      (depsNotMetResult step :: tail.1, tail.2)

/-- `SkillExecutor::execute_workflow` (`executor.rs` lines 237-317):
run the step loop and report overall success iff every recorded step
succeeded, with the first failed step's error as the workflow error. -/
def executeWorkflow (fx : StepEffects) (skill : Skill) (ctx : SkillContext) : SkillResult :=
  match skill.config.workflow with
  | none => .failWith "Invalid workflow configuration"
  | some wf =>
    let r := workflowLoop (executeWorkflowStep fx ctx) wf.steps .nil
    let stepResults := r.1
    let allSuccess := stepResults.all (·.success)
    { success := allSuccess
      output := some (.obj (.cons "completed" (.obj r.2)
        (.cons "variables" (.obj ctx.vars) .nil)))
      error :=
        if allSuccess then none
        else (stepResults.find? (fun res => ¬ res.success)).bind (·.error)
      durationMs := 0
      steps := some stepResults }

/-- `SkillExecutor::execute_template` (`executor.rs` lines 401-444):
replace each declared `\x7b\x7bname\x7d\x7d` placeholder with the
context variable, falling back to the declared default, else the empty
string. -/
def executeTemplate (skill : Skill) (ctx : SkillContext) : SkillResult :=
  match skill.config.template with
  | none => .failWith "Invalid template configuration"
  | some tmpl =>
    let content := expandVars tmpl.content tmpl.vars
    { success := true
      output := some (.obj (.cons "content" (.str content) .nil))
      error := none
      durationMs := 0
      steps := none }
where
  expandVars (content : String) : List TemplateVariable → String
    | [] => content
    | v :: rest =>
      let value :=
        (((ctx.vars.lookupKey v.name).map jsonToVarString).or v.default).getD ""
      expandVars (strReplace content ("\x7b\x7b" ++ v.name ++ "\x7d\x7d") value) rest

/-- `SkillExecutor::execute_agent` (`executor.rs` lines 447-482):
return the declarative agent configuration verbatim. -/
def executeAgent (skill : Skill) : SkillResult :=
  match skill.config.agent with
  | none => .failWith "Invalid agent configuration"
  | some a =>
    { success := true
      output := some (.obj (.cons "agent" (.obj
        (.cons "name" (.str a.name)
        (.cons "model" (.str a.model)
        (.cons "system_prompt" (.str a.systemPrompt)
        (.cons "permission_mode" (.str a.permissionMode) .nil))))) .nil))
      error := none
      durationMs := 0
      steps := none }

/-- `SkillExecutor::execute` (`executor.rs` lines 43-78): look the skill
up in the registry (`SkillRegistry::get_skill`), fail when it is
missing, fail with "Skill is disabled" before any dispatch when it is
disabled, otherwise dispatch on its kind. -/
def execute (fx : StepEffects) (registry : List (String × Skill)) (skillId : String)
    (ctx : SkillContext) : SkillResult :=
  match registry.lookup skillId with
  | none => .failWith ("Skill not found: " ++ skillId)
  | some skill =>
    if ¬ skill.enabled then .failWith "Skill is disabled"
    else
      match skill.kind with
      | .slashCommand => executeSlashCommand skill ctx
      | .hook => executeHook fx skill ctx
      | .workflow => executeWorkflow fx skill ctx
      | .template => executeTemplate skill ctx
      | .agent => executeAgent skill

/-! ### Concrete workflow scenario data -/

/-- Effect oracle whose shell always exits 0 and whose skill references
always succeed (used to exercise the dependency gate in isolation). -/
def fxPure : StepEffects :=
  { runShell := fun _ _ _ _ => .ok ("", "", 0)
    execSkillById := fun _ =>
      { success := true, output := none, error := none, durationMs := 0, steps := none } }

/-- Effect oracle whose shell command exits 1 (the `exit 1` scenario). -/
def fxShellFail : StepEffects :=
  { runShell := fun _ _ _ _ => .ok ("", "", 1)
    execSkillById := fun _ =>
      { success := true, output := none, error := none, durationMs := 0, steps := none } }

/-- An empty execution context at project path `/p`. -/
def ctxEmpty : SkillContext :=
  { projectPath := "/p", sessionId := none, arguments := .nil, env := [], vars := .nil }

/-- A `prompt` workflow step with the given dependencies. -/
def promptStep (id : String) (deps : List String) : WorkflowStep :=
  { id := id, kind := .prompt, name := id
    config := .obj (.cons "prompt" (.str "hi") .nil)
    dependsOn := deps, condition := none, timeoutSecs := none }

/-- A dependency-free `shell` workflow step running the given command. -/
def shellStep (id command : String) : WorkflowStep :=
  { id := id, kind := .shell, name := id
    config := .obj (.cons "command" (.str command) .nil)
    dependsOn := [], condition := none, timeoutSecs := none }

/-- An enabled workflow skill with the given steps. -/
def mkWorkflowSkill (steps : List WorkflowStep) : Skill :=
  { id := "wf", kind := .workflow, name := "wf", description := ""
    visibility := .globalScope, enabled := true
    config :=
      { slashCommand := none, hook := none
        workflow := some { steps := steps, timeoutSecs := none, maxParallel := none }
        template := none, agent := none }
    projectPath := none, source := "file://wf" }

/-! ## Task manager (`tasks/types.rs`, `tasks/manager.rs`)

Tasks are embedded with their lifecycle-relevant fields; RFC3339
timestamp strings are embedded as integers with their chronological
order (for timestamps produced by a monotone clock the two orders
agree, and the string comparison in `cleanup_history` is exactly the
order used here).  The `DashMap` of tasks is an association list with
unique ids. -/

/-- `TaskStatus` (`tasks/types.rs`). -/
inductive TaskStatus where
  | pending
  | running
  | completed
  | failed
  | cancelled
  | paused
  deriving Repr, DecidableEq

/-- `TaskResult` (`tasks/types.rs`), claim-relevant fields. -/
structure TaskResult where
  success : Bool
  error : Option String
  durationMs : Nat
  deriving Repr, DecidableEq

/-- `Task` (`tasks/types.rs`), claim-relevant fields. -/
structure Task where
  id : String
  name : String
  status : TaskStatus
  result : Option TaskResult
  cancellable : Bool
  createdAt : Int
  startedAt : Option Int
  completedAt : Option Int
  deriving Repr, DecidableEq

/-- `Task::complete` (`tasks/types.rs` lines 284-292): status becomes
`Completed`/`Failed` by the result's success flag, the result is stored,
and `completed_at` is stamped. -/
def Task.complete (t : Task) (result : TaskResult) (now : Int) : Task :=
  { t with
    status := if result.success then .completed else .failed
    result := some result
    completedAt := some now }

/-- `Task::is_terminal` (`tasks/types.rs`). -/
def Task.isTerminal (t : Task) : Bool :=
  match t.status with
  | .completed | .failed | .cancelled => true
  | _ => false

/-- Stable insertion into a key-sorted list (ascending by the Bool
order `le`); `insertionSortBy` below embeds the ascending
`sort_by(|a, b| a.1.cmp(&b.1))` of `cleanup_history`.  (Rust's sort is
stable; for a total preorder the stable ascending sort is a unique
function, which insertion sort also computes.) -/
def insertSortedBy {α : Type} (le : α → α → Bool) (x : α) : List α → List α
  | [] => [x]
  | y :: ys => if le x y then x :: y :: ys else y :: insertSortedBy le x ys

/-- Stable ascending sort (see `insertSortedBy`). -/
def insertionSortBy {α : Type} (le : α → α → Bool) : List α → List α
  | [] => []
  | x :: xs => insertSortedBy le x (insertionSortBy le xs)

/-- `TaskManager::cleanup_history` (`tasks/manager.rs` lines 277-294):
collect `(id, completed_at)` for terminal tasks, sort ascending by
completion time (oldest first), and remove the first
`count - max_history` of them from the task map. -/
def cleanupHistory (maxHistory : Nat) (tasks : List Task) : List Task :=
  let completed := (tasks.filter Task.isTerminal).map
    (fun t => (t.id, t.completedAt.getD 0))
  let sorted := insertionSortBy (fun a b => a.2 ≤ b.2) completed
  let excess := completed.length - maxHistory
  let toRemove := (sorted.take excess).map (·.1)
  tasks.filter (fun t => !(toRemove.contains t.id))

/-- `TaskManager::complete_task` (`tasks/manager.rs` lines 163-185):
complete the task when it exists (also emitting a `Completed`/`Failed`
event and dropping the handle, unobserved here), then always run the
history cleanup with `max_history` (default 100). -/
def completeTask (maxHistory : Nat) (tasks : List Task) (taskId : String)
    (result : TaskResult) (now : Int) : List Task :=
  let tasks := tasks.map (fun t => if t.id = taskId then t.complete result now else t)
  cleanupHistory maxHistory tasks

/-! ## Theorems -/

/-- C1 counterexample: a bearer policy that expired one hour ago makes
`connect()` fail with `TokenExpired`, not `InvalidCredentials`, and
issue no network request. -/
theorem connect_expired_bearer_cex :
    (connect (some (.bearer { token := "token", expiresAt := some 0 })) 3600
        { initializeOutcome := .ok { protocolVersion := "2025-11-25" },
          initializedNotifyOutcome := .ok () }).result = .error .tokenExpired ∧
    (connect (some (.bearer { token := "token", expiresAt := some 0 })) 3600
        { initializeOutcome := .ok { protocolVersion := "2025-11-25" },
          initializedNotifyOutcome := .ok () }).result ≠ .error .invalidCredentials ∧
    (connect (some (.bearer { token := "token", expiresAt := some 0 })) 3600
        { initializeOutcome := .ok { protocolVersion := "2025-11-25" },
          initializedNotifyOutcome := .ok () }).httpRequestsIssued = 0 := by
  decide

/-- C1 (amended): whenever the configured auth mechanism's validity
predicate is false at the time of call — in particular for a bearer
token whose `expiresAt` is in the past — `connect()` fails with
`TokenExpired` and issues no network request. -/
theorem connect_invalid_auth_fails_without_request (a : McpAuth) (now : Int)
    (net : ConnectNet) (h : a.isValid now = false) :
    connect (some a) now net =
      { result := .error .tokenExpired, httpRequestsIssued := 0, connected := false } := by
  simp [connect, h]

/-- C1 witness: the amended theorem applied to a bearer token that
expired one hour before the call. -/
theorem connect_invalid_auth_fails_without_request_witness :
    connect (some (.bearer { token := "token", expiresAt := some 0 })) 3600
        { initializeOutcome := .ok { protocolVersion := "2025-11-25" },
          initializedNotifyOutcome := .ok () } =
      { result := .error .tokenExpired, httpRequestsIssued := 0, connected := false } :=
  connect_invalid_auth_fails_without_request _ _ _ (by decide)

/-- `updateEntry` is the identity when the key is absent. -/
theorem updateEntry_of_lookup_none (l : List (String × SessionState)) (id : String)
    (f : SessionState → SessionState) (h : l.lookup id = none) :
    updateEntry l id f = l := by
  induction l with
  | nil => rfl
  | cons p rest ih =>
    rw [List.lookup] at h
    by_cases hk : id = p.1
    · simp [hk] at h
    · have hk' : (id == p.1) = false := by simp [hk]
      rw [hk'] at h
      simp only [updateEntry, List.map_cons]
      rw [if_neg (fun hcontra => hk hcontra.symm)]
      have := ih h
      simpa [updateEntry] using this

/-- C4 counterexample: `cancel_session` on an id absent from the
registry returns `Ok(())` — a silent success, not `SessionNotFound` —
and leaves the (empty) manager unchanged. -/
theorem cancel_missing_session_cex :
    (cancelSession ManagerState.new "missing").1 = .ok () ∧
    (cancelSession ManagerState.new "missing").1 ≠ .error (.sessionNotFound "missing") ∧
    (cancelSession ManagerState.new "missing").2 = ManagerState.new := by
  decide

/-- C4 (amended): for every session id not present in the session
manager's registry, `cancel_session(id)` returns `Ok(())` (a silent
success, never `SessionNotFound`) and leaves the session registry
unchanged. -/
theorem cancel_missing_session_silent_success (st : ManagerState) (id : String)
    (h : st.sessions.lookup id = none) :
    (cancelSession st id).1 = .ok () ∧ (cancelSession st id).2.sessions = st.sessions := by
  refine ⟨rfl, ?_⟩
  show (cancelSessionPhase2 (cancelSessionPhase1 st id) id).sessions = st.sessions
  simp only [cancelSessionPhase1, cancelSessionPhase2]
  rw [updateEntry_of_lookup_none _ _ _ h, updateEntry_of_lookup_none _ _ _ h]

/-- C4 witness: the amended theorem applied to a fresh manager and a
never-created id. -/
theorem cancel_missing_session_silent_success_witness :
    (cancelSession ManagerState.new "missing").1 = .ok () ∧
    (cancelSession ManagerState.new "missing").2.sessions = ManagerState.new.sessions :=
  cancel_missing_session_silent_success ManagerState.new "missing" (by decide)

/-- C5 counterexample: with the default threshold 3, a run of four
consecutive failed probes emits `ServerUnreachable` twice (at the third
and at the fourth failure), not exactly once. -/
theorem unreachable_event_per_failure_cex :
    countUnreachable (runHealthSamples 3 (ServerHealth.new "s")
      [(.error "connection refused", 1), (.error "connection refused", 2),
       (.error "connection refused", 3), (.error "connection refused", 4)]).2 = 2 := by
  decide

/-- C5 (amended): each failed probe emits exactly one
`ServerUnreachable` event when the resulting consecutive-failure count
is at or above the threshold, and none below it — so a failure run of
length `n ≥ threshold` emits `n - threshold + 1` such events, not
exactly one. -/
theorem unreachable_emitted_iff_threshold (threshold : Nat) (h : ServerHealth)
    (e : String) (now : Int) :
    countUnreachable (checkServerHealth threshold h (.error e) now).2 =
      if h.consecutiveFailures + 1 ≥ threshold then 1 else 0 := by
  simp only [checkServerHealth, ServerHealth.recordFailure, countUnreachable]
  by_cases hc : h.consecutiveFailures + 1 ≥ threshold
  · simp only [hc, if_pos, if_true, List.countP_append, List.countP_cons]
    split <;> simp [List.countP_cons]
  · simp only [hc, if_neg, if_false, List.countP_append, List.countP_cons]
    split <;> simp [List.countP_cons]

/-- C6: classification of one health sample.  On a successful probe with
latency `L` the status becomes `Healthy`, `consecutiveFailures` resets,
`consecutiveSuccesses` increments, the average latency becomes the
integer exponential moving average `(4·avg + L) / 5` (or `L` for the
first sample), and the status is `Degraded` instead exactly when
`L > max(2·average, 1000)` for the updated average; on a failed probe
the status becomes `Unhealthy`, the latency is cleared,
`consecutiveSuccesses` resets and `consecutiveFailures` increments. -/
theorem health_sample_classification (h : ServerHealth) (L : Nat) (e : String)
    (now now2 : Int) :
    ((h.recordSuccess L now).status =
        (if L > max (2 * emaNext h L) 1000 then .degraded else .healthy) ∧
     (h.recordSuccess L now).consecutiveFailures = 0 ∧
     (h.recordSuccess L now).consecutiveSuccesses = h.consecutiveSuccesses + 1 ∧
     (h.recordSuccess L now).latencyMs = some L ∧
     (h.recordSuccess L now).avgLatencyMs = some (emaNext h L)) ∧
    ((h.recordFailure e now2).status = .unhealthy ∧
     (h.recordFailure e now2).latencyMs = none ∧
     (h.recordFailure e now2).consecutiveSuccesses = 0 ∧
     (h.recordFailure e now2).consecutiveFailures = h.consecutiveFailures + 1) := by
  constructor
  · cases havg : h.avgLatencyMs with
    | none =>
      simp only [ServerHealth.recordSuccess, emaNext, havg]
      by_cases hdeg : (decide (L > L * 2) && decide (L > 1000)) = true
      · rw [if_pos hdeg]
        refine ⟨?_, rfl, rfl, rfl, rfl⟩
        rw [Bool.and_eq_true, decide_eq_true_iff, decide_eq_true_iff] at hdeg
        rw [if_pos (by omega)]
      · rw [if_neg hdeg]
        refine ⟨?_, rfl, rfl, rfl, rfl⟩
        rw [Bool.and_eq_true, decide_eq_true_iff, decide_eq_true_iff] at hdeg
        rw [if_neg (by omega)]
    | some avg =>
      simp only [ServerHealth.recordSuccess, emaNext, havg]
      by_cases hdeg : (decide (L > (avg * 4 + L) / 5 * 2) && decide (L > 1000)) = true
      · rw [if_pos hdeg]
        refine ⟨?_, rfl, rfl, rfl, rfl⟩
        rw [Bool.and_eq_true, decide_eq_true_iff, decide_eq_true_iff] at hdeg
        rw [if_pos (by omega)]
      · rw [if_neg hdeg]
        refine ⟨?_, rfl, rfl, rfl, rfl⟩
        rw [Bool.and_eq_true, decide_eq_true_iff, decide_eq_true_iff] at hdeg
        rw [if_neg (by omega)]
  · exact ⟨rfl, rfl, rfl, rfl⟩

/-- C10: executing a registered but disabled skill fails with
"Skill is disabled" without dispatching on the skill's kind (the result
is the fixed early-return record, independent of kind, config and
effect oracles; `execute` reads and never writes the registry). -/
theorem execute_disabled_skill (fx : StepEffects) (registry : List (String × Skill))
    (skillId : String) (ctx : SkillContext) (skill : Skill)
    (hlook : registry.lookup skillId = some skill) (hdis : skill.enabled = false) :
    execute fx registry skillId ctx = SkillResult.failWith "Skill is disabled" := by
  simp [execute, hlook, hdis]

/-- C10 witness: the theorem applied to a one-skill registry holding a
disabled hook skill. -/
theorem execute_disabled_skill_witness :
    execute
      { runShell := fun _ _ _ _ => .error "unused",
        execSkillById := fun _ => SkillResult.failWith "unused" }
      [("s1",
        { id := "s1", kind := .hook, name := "n", description := "", visibility := .globalScope,
          enabled := false,
          config := { slashCommand := none, hook := none, workflow := none,
                      template := none, agent := none },
          projectPath := none, source := "file://s1" })]
      "s1"
      { projectPath := "/p", sessionId := none, arguments := .nil, env := [], vars := .nil } =
      SkillResult.failWith "Skill is disabled" :=
  execute_disabled_skill _ _ _ _ _ rfl rfl

/-- Members satisfying two mutually exclusive predicates are counted at
most once: the two filters together are no longer than the list. -/
theorem length_filter_add_length_filter_le {α : Type} (l : List α) (p q : α → Bool)
    (h : ∀ a ∈ l, ¬(p a = true ∧ q a = true)) :
    (l.filter p).length + (l.filter q).length ≤ l.length := by
  induction l with
  | nil => simp
  | cons a t ih =>
    have ht : ∀ x ∈ t, ¬(p x = true ∧ q x = true) :=
      fun x hx => h x (List.mem_cons_of_mem a hx)
    have hsum := ih ht
    have ha := h a (List.mem_cons_self a t)
    cases hp : p a <;> cases hq : q a <;>
        simp only [List.filter_cons, hp, hq, if_true, if_false, Bool.false_eq_true,
          List.length_cons]
    · omega
    · omega
    · omega
    · exact absurd ⟨hp, hq⟩ ha

/-- C8 counterexample: a manager of capacity 1 holding one
(non-terminal) session `"a"`; `create_session("a", …)` fails with
`MaxSessionsReached`, not `SessionExists`, because the capacity check
runs before the duplicate-id check. -/
theorem create_at_capacity_duplicate_cex :
    (createSession (createSession (ManagerState.withLimits 1) "a" "/p" "m").2 "a" "/p" "m").1 =
      .error (.maxSessionsReached 1) ∧
    (createSession (createSession (ManagerState.withLimits 1) "a" "/p" "m").2 "a" "/p" "m").1 ≠
      .error (.sessionExists "a") := by
  decide

/-- C8 (amended): at capacity, `create_session` fails with
`MaxSessionsReached` when no terminal session can be reaped — also for
an already-registered id, since the capacity check precedes the
duplicate check; when at least one terminal session exists, after the
cleanup pass it succeeds for ids no longer registered and fails with
`SessionExists` for ids still registered. -/
theorem create_session_capacity_behavior (st : ManagerState) (id path model : String)
    (hcap : st.sessions.length = st.maxSessions) :
    (st.sessions.filter (fun p => p.2.isTerminal) = [] →
      (createSession st id path model).1 = .error (.maxSessionsReached st.maxSessions)) ∧
    (st.sessions.filter (fun p => p.2.isTerminal) ≠ [] →
      (((cleanupTerminalSessions st).sessions.lookup id) = none →
        (createSession st id path model).1 = .ok id) ∧
      (∀ s, ((cleanupTerminalSessions st).sessions.lookup id) = some s →
        (createSession st id path model).1 = .error (.sessionExists id))) := by
  have hge : st.sessions.length ≥ st.maxSessions := le_of_eq hcap.symm
  have hmaxeq : (cleanupTerminalSessions st).maxSessions = st.maxSessions := rfl
  constructor
  · intro hterm
    have hclean : cleanupTerminalSessions st = st := by
      have hids : (st.sessions.filter (fun p => p.2.isTerminal)).map (·.1) = [] := by
        rw [hterm]; rfl
      simp only [cleanupTerminalSessions, hids, List.contains_nil]
      cases st
      simp
    simp only [createSession, if_pos hge, hclean, if_pos hge]
  · intro hterm
    have hlt : (cleanupTerminalSessions st).sessions.length < st.maxSessions := by
      have hdisj : ∀ p ∈ st.sessions,
          ¬((!(((st.sessions.filter (fun p => p.2.isTerminal)).map (·.1)).contains p.1)) = true ∧
            p.2.isTerminal = true) := by
        intro p hp hand
        obtain ⟨hnc, hterm'⟩ := hand
        rw [Bool.not_eq_true'] at hnc
        have hnmem : p.1 ∉ (st.sessions.filter (fun p => p.2.isTerminal)).map (·.1) := by
          simpa using hnc
        exact hnmem (List.mem_map.2 ⟨p, List.mem_filter.2 ⟨hp, hterm'⟩, rfl⟩)
      have hsum := length_filter_add_length_filter_le st.sessions
        (fun p => !(((st.sessions.filter (fun p => p.2.isTerminal)).map (·.1)).contains p.1))
        (fun p => p.2.isTerminal) hdisj
      have hone : 1 ≤ (st.sessions.filter (fun p => p.2.isTerminal)).length :=
        List.length_pos.2 hterm
      have hlen : (cleanupTerminalSessions st).sessions.length =
          (st.sessions.filter (fun p =>
            !(((st.sessions.filter (fun p => p.2.isTerminal)).map (·.1)).contains p.1))).length := rfl
      omega
    have hnotle : ¬ (st.maxSessions ≤ (cleanupTerminalSessions st).sessions.length) :=
      not_le.2 hlt
    constructor
    · intro hnone
      simp only [createSession, if_pos hge, hmaxeq, hnone]
      rw [if_neg hnotle]
      simp
    · intro s hsome
      simp only [createSession, if_pos hge, hmaxeq, hsome]
      rw [if_neg hnotle]
      simp

/-- C8 witness: the amended theorem applied to a capacity-1 manager
whose single session is completed (terminal): creating a fresh id
succeeds after cleanup. -/
theorem create_session_capacity_behavior_witness :
    (createSession
      { sessions := [("t", (SessionState.new "t" "/p" "m").setCompleted)],
        processes := [], maxSessions := 1 } "b" "/p" "m").1 = .ok "b" :=
  ((create_session_capacity_behavior
      { sessions := [("t", (SessionState.new "t" "/p" "m").setCompleted)],
        processes := [], maxSessions := 1 } "b" "/p" "m" (by decide)).2
    (by decide)).1 (by decide)

/-- A successful association-list lookup comes from some entry. -/
theorem lookup_some_mem {α β : Type} [BEq α] (l : List (α × β)) (a : α) (b : β)
    (h : l.lookup a = some b) : ∃ k, (k, b) ∈ l := by
  induction l with
  | nil => simp [List.lookup] at h
  | cons p rest ih =>
    obtain ⟨k, v⟩ := p
    rw [List.lookup] at h
    cases hab : a == k with
    | true =>
      rw [hab] at h
      exact ⟨k, by simp [Option.some_inj.1 h]⟩
    | false =>
      rw [hab] at h
      obtain ⟨k', hk'⟩ := ih h
      exact ⟨k', List.mem_cons_of_mem _ hk'⟩

/-- Fresh sessions satisfy the pid/status relation. -/
theorem pidStatusOk_new (id path model : String) :
    pidStatusOk (SessionState.new id path model) := by
  unfold pidStatusOk
  exact ⟨fun h => (nomatch h), fun h => (nomatch h)⟩

/-- `set_running` establishes the pid/status relation. -/
theorem pidStatusOk_setRunning (s : SessionState) (pid : Nat) :
    pidStatusOk (s.setRunning pid) := by
  unfold pidStatusOk
  exact ⟨fun _ => Or.inl rfl, fun _ => rfl⟩

/-- Moving to `Terminating` preserves the pid/status relation. -/
theorem pidStatusOk_terminating (s : SessionState) :
    pidStatusOk (s.setStatus .terminating) := by
  unfold pidStatusOk
  exact ⟨fun _ => Or.inr (Or.inr rfl), fun h => (nomatch h)⟩

/-- `set_cancelled` clears the pid. -/
theorem pidStatusOk_setCancelled (s : SessionState) :
    pidStatusOk s.setCancelled := by
  unfold pidStatusOk
  exact ⟨fun h => (nomatch h), fun h => (nomatch h)⟩

/-- `set_completed` clears the pid. -/
theorem pidStatusOk_setCompleted (s : SessionState) :
    pidStatusOk s.setCompleted := by
  unfold pidStatusOk
  exact ⟨fun h => (nomatch h), fun h => (nomatch h)⟩

/-- `set_failed` clears the pid. -/
theorem pidStatusOk_setFailed (s : SessionState) (e : String) :
    pidStatusOk (s.setFailed e) := by
  unfold pidStatusOk
  exact ⟨fun h => (nomatch h), fun h => (nomatch h)⟩

/-- Every entry of an updated map is an old entry, possibly rewritten by
the update function. -/
theorem mem_updateEntry_cases {l : List (String × SessionState)} {id : String}
    {f : SessionState → SessionState} {p : String × SessionState}
    (hp : p ∈ updateEntry l id f) : ∃ q ∈ l, p = q ∨ p = (q.1, f q.2) := by
  simp only [updateEntry, List.mem_map] at hp
  obtain ⟨q, hq, hpq⟩ := hp
  refine ⟨q, hq, ?_⟩
  by_cases h : q.1 = id
  · rw [if_pos h] at hpq
    exact Or.inr hpq.symm
  · rw [if_neg h] at hpq
    exact Or.inl hpq.symm

/-- Every session entry after `create_session` is an old entry or the
freshly created session. -/
theorem mem_createSession_sessions {st : ManagerState} {id path model : String}
    {p : String × SessionState}
    (hp : p ∈ (createSession st id path model).2.sessions) :
    p ∈ st.sessions ∨ p.2 = SessionState.new id path model := by
  have hclean : ∀ q : String × SessionState,
      q ∈ (cleanupTerminalSessions st).sessions → q ∈ st.sessions :=
    fun q hq => (List.mem_filter.1 hq).1
  have main : ∀ st0 : ManagerState, (∀ q ∈ st0.sessions, q ∈ st.sessions) →
      p ∈ (if st0.sessions.length ≥ st0.maxSessions then
            ((.error (.maxSessionsReached st0.maxSessions) : Except SessionError String), st0)
          else if (st0.sessions.lookup id).isSome then
            (.error (.sessionExists id), st0)
          else
            (.ok id, { st0 with sessions :=
              st0.sessions ++ [(id, SessionState.new id path model)] })).2.sessions →
      p ∈ st.sessions ∨ p.2 = SessionState.new id path model := by
    intro st0 hsub hmem
    split at hmem
    case isTrue => exact Or.inl (hsub p hmem)
    case isFalse =>
      split at hmem
      case isTrue => exact Or.inl (hsub p hmem)
      case isFalse =>
        rcases List.mem_append.1 hmem with h | h
        · exact Or.inl (hsub p h)
        · simp only [List.mem_singleton] at h
          exact Or.inr (by rw [h])
  rw [createSession] at hp
  by_cases h1 : st.sessions.length ≥ st.maxSessions
  · rw [if_pos h1] at hp
    exact main (cleanupTerminalSessions st) (fun q hq => hclean q hq) hp
  · rw [if_neg h1] at hp
    exact main st (fun q hq => hq) hp

/-- The pid/status relation holds for every session entry of every
reachable manager state. -/
theorem pid_status_invariant_all (st : ManagerState) (hr : Reachable st) :
    ∀ p ∈ st.sessions, pidStatusOk p.2 := by
  induction hr with
  | init _ => intro p hp; exact absurd hp (List.not_mem_nil p)
  | create st id path model _ ih =>
    intro p hp
    rcases mem_createSession_sessions hp with h | h
    · exact ih p h
    · rw [h]; exact pidStatusOk_new id path model
  | register st id pid _ ih =>
    intro p hp
    cases hl : st.sessions.lookup id with
    | some s =>
      simp only [registerProcess, hl] at hp
      rcases mem_updateEntry_cases hp with ⟨q, hq, hpq | hpq⟩
      · rw [hpq]; exact ih q hq
      · rw [hpq]; exact pidStatusOk_setRunning q.2 pid
    | none =>
      simp only [registerProcess, hl] at hp
      exact ih p hp
  | cancelBegin st id _ ih =>
    intro p hp
    simp only [cancelSessionPhase1] at hp
    rcases mem_updateEntry_cases hp with ⟨q, hq, hpq | hpq⟩
    · rw [hpq]; exact ih q hq
    · rw [hpq]; exact pidStatusOk_terminating q.2
  | cancelEnd st id _ ih =>
    intro p hp
    simp only [cancelSessionPhase2] at hp
    rcases mem_updateEntry_cases hp with ⟨q, hq, hpq | hpq⟩
    · rw [hpq]; exact ih q hq
    · rw [hpq]; exact pidStatusOk_setCancelled q.2
  | kill st id _ ih =>
    intro p hp
    simp only [killSession] at hp
    rcases mem_updateEntry_cases hp with ⟨q, hq, hpq | hpq⟩
    · rw [hpq]; exact ih q hq
    · rw [hpq]; exact pidStatusOk_setCancelled q.2
  | complete st id _ ih =>
    intro p hp
    cases hl : st.sessions.lookup id with
    | some s =>
      simp only [completeSession, hl] at hp
      rcases mem_updateEntry_cases hp with ⟨q, hq, hpq | hpq⟩
      · rw [hpq]; exact ih q hq
      · rw [hpq]; exact pidStatusOk_setCompleted q.2
    | none =>
      simp only [completeSession, hl] at hp
      exact ih p hp
  | fail st id e _ ih =>
    intro p hp
    cases hl : st.sessions.lookup id with
    | some s =>
      simp only [failSession, hl] at hp
      rcases mem_updateEntry_cases hp with ⟨q, hq, hpq | hpq⟩
      · rw [hpq]; exact ih q hq
      · rw [hpq]; exact pidStatusOk_setFailed q.2 e
    | none =>
      simp only [failSession, hl] at hp
      exact ih p hp

/-- C7 counterexample: cancelling a freshly created session (no process
was ever registered) passes through a reachable state whose session has
status `Terminating` but no pid — refuting "pid present iff status ∈
{Running, Paused, Terminating}". -/
theorem pid_invariant_cex :
    Reachable (cancelSessionPhase1 (createSession ManagerState.new "s1" "/p" "m").2 "s1") ∧
    ((cancelSessionPhase1 (createSession ManagerState.new "s1" "/p" "m").2 "s1").sessions.lookup
        "s1").map (fun s => (s.status, s.pid)) = some (SessionStatus.terminating, none) := by
  constructor
  · exact .cancelBegin _ _ (.create _ _ _ _ (.init 10))
  · decide

/-- C7 (amended): in every state reachable through the manager's
operations, every registered session satisfies: a present pid implies
status ∈ {Running, Paused, Terminating}, and status Running implies a
present pid.  (The full "iff" fails only in the `Terminating` phase of
cancelling a session that never had a process registered.) -/
theorem pid_status_invariant (st : ManagerState) (hr : Reachable st) (id : String)
    (s : SessionState) (hs : st.sessions.lookup id = some s) : pidStatusOk s := by
  obtain ⟨k, hk⟩ := lookup_some_mem st.sessions id s hs
  exact pid_status_invariant_all st hr (k, s) hk

/-- C7 witness: a created session with a registered process is `Running`
with its pid present. -/
theorem pid_status_invariant_witness :
    pidStatusOk ((SessionState.new "s1" "/p" "m").setRunning 42) :=
  pid_status_invariant
    (registerProcess (createSession (ManagerState.withLimits 10) "s1" "/p" "m").2 "s1" 42).2
    (.register _ "s1" 42 (.create _ "s1" "/p" "m" (.init 10)))
    "s1" _ (by decide)

/-- The selection step of `handle_sse_response` applied to one frame
agrees with `ssePick`: a matching frame overwrites the accumulator, any
other frame leaves it unchanged. -/
theorem sseStep_eq_pick (parse : String → Option JsonRpcResponse) (requestId : Json)
    (acc : Option JsonRpcResponse) (frame : List Char) :
    (match parseSseEvent frame with
     | none => acc
     | some ev =>
       match parse ev.data with
       | none => acc
       | some resp => if resp.id = requestId then some resp else acc) =
    (match ssePick parse requestId frame with
     | none => acc
     | some r => some r) := by
  cases hev : parseSseEvent frame with
  | none => simp [ssePick, hev]
  | some ev =>
    cases hp : parse ev.data with
    | none => simp [ssePick, hev, hp]
    | some resp =>
      by_cases h : resp.id = requestId <;> simp [ssePick, hev, hp, h]

/-- The overwrite-fold of `handle_sse_response` computes the *last*
contribution, with the initial accumulator as fallback. -/
theorem foldl_pick_or (parse : String → Option JsonRpcResponse) (requestId : Json)
    (frames : List (List Char)) (acc : Option JsonRpcResponse) :
    frames.foldl
      (fun acc frame =>
        match parseSseEvent frame with
        | none => acc
        | some ev =>
          match parse ev.data with
          | none => acc
          | some resp => if resp.id = requestId then some resp else acc)
      acc =
    ((frames.filterMap (ssePick parse requestId)).getLast?).or acc := by
  induction frames generalizing acc with
  | nil => simp
  | cons f fs ih =>
    rw [List.foldl_cons, ih, sseStep_eq_pick, List.filterMap_cons]
    cases hpick : ssePick parse requestId f with
    | none => rfl
    | some b =>
      rw [List.getLast?_cons]
      cases (fs.filterMap (ssePick parse requestId)).getLast? <;> rfl

/-- The selection over a whole frame list is the last matching frame. -/
theorem sseSelectResponse_eq_getLast (parse : String → Option JsonRpcResponse)
    (requestId : Json) (frames : List (List Char)) :
    sseSelectResponse parse requestId frames =
      (frames.filterMap (ssePick parse requestId)).getLast? := by
  rw [sseSelectResponse, foldl_pick_or]
  cases (frames.filterMap (ssePick parse requestId)).getLast? <;> rfl

/-- C2 counterexample: a stream whose two frames both carry the
request's id.  The first matching frame holds result `"first"`, but the
transport returns the frame with result `"second"` — the last match,
not the first. -/
theorem sse_first_frame_cex :
    sseMatchingResponses parseTwo (.num 2) "data: A\n\ndata: B\n\n" =
      [{ id := .num 2, result := some (.str "first"), error := none },
       { id := .num 2, result := some (.str "second"), error := none }] ∧
    handleResponse parseTwo 200 "text/event-stream" "data: A\n\ndata: B\n\n" (.num 2) =
      .ok { id := .num 2, result := some (.str "second"), error := none } := by
  constructor
  · decide
  · decide

/-- C2 (amended): for every HTTP response with status 200 or 202 and a
content-type containing `text/event-stream`, the transport reassembles
SSE frames on blank-line boundaries and returns the *last* frame whose
parsed JSON-RPC response id equals the request's id (frames with a
mismatched id or unparsable data are skipped; the stream is consumed to
its end), failing with `InvalidResponse` when no frame matches. -/
theorem handleResponse_sse_last_match (parse : String → Option JsonRpcResponse)
    (status : Nat) (contentType body : String) (requestId : Json)
    (hstatus : status = 200 ∨ status = 202)
    (hct : strContainsSub contentType "text/event-stream" = true) :
    handleResponse parse status contentType body requestId =
      match (sseMatchingResponses parse requestId body).getLast? with
      | some r => .ok r
      | none => .error (.invalidResponse "No result in SSE stream") := by
  have hcond : (status = 200 ∨ status = 202) := hstatus
  rw [handleResponse, if_pos hcond, if_pos hct, handleSseResponse,
    sseSelectResponse_eq_getLast]
  rfl

/-- C2 witness: the amended theorem applied to the two-frame stream —
the last matching frame is returned. -/
theorem handleResponse_sse_last_match_witness :
    handleResponse parseTwo 200 "text/event-stream" "data: A\n\ndata: B\n\n" (.num 2) =
      .ok { id := .num 2, result := some (.str "second"), error := none } := by
  rw [handleResponse_sse_last_match parseTwo 200 "text/event-stream"
    "data: A\n\ndata: B\n\n" (.num 2) (Or.inl rfl) (by decide)]
  decide

/-- A workflow step loop on a non-empty step list records at least one
step result. -/
theorem workflowLoop_length_pos (runStep : WorkflowStep → StepResult)
    (step : WorkflowStep) (rest : List WorkflowStep) (completed : JsonFields) :
    1 ≤ ((workflowLoop runStep (step :: rest) completed).1).length := by
  rw [workflowLoop]
  by_cases hdeps : (step.dependsOn.all (fun dep => (completed.lookupKey dep).isSome)) = true
  · rw [if_pos hdeps]
    by_cases hsucc : (runStep step).success = true
    · simp [hsucc]
    · simp [hsucc]
  · rw [if_neg hdeps]
    simp

/-- Control-flow specification of the workflow step loop: one result
per attempted step in declared order; a step whose dependencies have no
recorded output is recorded as the "Dependencies not met" failure and
does *not* stop the loop; a step that executes and fails is the last
recorded result.  (The hypothesis rules executed steps out of ever
reporting the literal gate message, which separates the two failure
shapes.) -/
theorem workflowLoop_spec (runStep : WorkflowStep → StepResult)
    (hrs : ∀ step, (runStep step).error ≠ some "Dependencies not met")
    (hid : ∀ step, (runStep step).stepId = step.id) :
    ∀ (steps : List WorkflowStep) (completed : JsonFields),
    ((workflowLoop runStep steps completed).1).length ≤ steps.length ∧
    (∀ i, i < ((workflowLoop runStep steps completed).1).length →
      ((workflowLoop runStep steps completed).1)[i]?.map StepResult.stepId =
        steps[i]?.map WorkflowStep.id) ∧
    (∀ i r step, ((workflowLoop runStep steps completed).1)[i]? = some r →
      steps[i]? = some step → r.error = some "Dependencies not met" →
      r = depsNotMetResult step ∧
      (i + 1 < steps.length → i + 1 < ((workflowLoop runStep steps completed).1).length)) ∧
    (∀ i r, ((workflowLoop runStep steps completed).1)[i]? = some r →
      r.success = false → r.error ≠ some "Dependencies not met" →
      ((workflowLoop runStep steps completed).1).length = i + 1) := by
  intro steps
  induction steps with
  | nil =>
    intro completed
    refine ⟨by simp [workflowLoop], ?_, ?_, ?_⟩
    · intro i hi; simp [workflowLoop] at hi
    · intro i r step hr; simp [workflowLoop] at hr
    · intro i r hr; simp [workflowLoop] at hr
  | cons step rest ih =>
    intro completed
    rw [workflowLoop]
    by_cases hdeps : (step.dependsOn.all (fun dep => (completed.lookupKey dep).isSome)) = true
    · rw [if_pos hdeps]
      by_cases hsucc : (runStep step).success = true
      · -- executed, succeeded: result is consed on the tail of the rest
        have ihr := ih (if (runStep step).success = true then
          match (runStep step).output with
          | some out => completed.insertKey step.id out
          | none => completed
          else completed)
        simp only [hsucc, if_true] at ihr ⊢
        obtain ⟨ihlen, ihids, ihdep, ihfail⟩ := ihr
        refine ⟨by simpa using Nat.succ_le_succ ihlen, ?_, ?_, ?_⟩
        · intro i hi
          cases i with
          | zero => simp [hid step]
          | succ j =>
            simp only [List.getElem?_cons_succ]
            exact ihids j (by simpa using Nat.lt_of_succ_lt_succ hi)
        · intro i r stp hr hstp herr
          cases i with
          | zero =>
            simp only [List.getElem?_cons_zero, Option.some_inj] at hr
            exact absurd (hr ▸ herr) (hrs step)
          | succ j =>
            simp only [List.getElem?_cons_succ, List.length_cons] at hr hstp ⊢
            have := ihdep j r stp hr hstp herr
            exact ⟨this.1, fun hlt => by
              have := this.2 (by omega)
              omega⟩
        · intro i r hr hfail herr
          cases i with
          | zero =>
            simp only [List.getElem?_cons_zero, Option.some_inj] at hr
            rw [hr] at hsucc
            exact absurd hsucc (by simp [hfail])
          | succ j =>
            simp only [List.getElem?_cons_succ, List.length_cons] at hr ⊢
            have := ihfail j r hr hfail herr
            omega
      · -- executed, failed: the loop stops with this single result
        simp only [hsucc, if_false, Bool.false_eq_true]
        refine ⟨by simp, ?_, ?_, ?_⟩
        · intro i hi
          cases i with
          | zero => simp [hid step]
          | succ j => simp at hi
        · intro i r stp hr hstp herr
          cases i with
          | zero =>
            simp only [List.getElem?_cons_zero, Option.some_inj] at hr
            exact absurd (hr ▸ herr) (hrs step)
          | succ j => simp at hr
        · intro i r hr hfail herr
          cases i with
          | zero => simp
          | succ j => simp at hr
    · -- dependencies not met: gate failure recorded, loop continues
      rw [if_neg hdeps]
      obtain ⟨ihlen, ihids, ihdep, ihfail⟩ := ih completed
      refine ⟨by simpa using Nat.succ_le_succ ihlen, ?_, ?_, ?_⟩
      · intro i hi
        cases i with
        | zero => simp [depsNotMetResult]
        | succ j =>
          simp only [List.getElem?_cons_succ]
          exact ihids j (by simpa using Nat.lt_of_succ_lt_succ hi)
      · intro i r stp hr hstp herr
        cases i with
        | zero =>
          simp only [List.getElem?_cons_zero, Option.some_inj] at hr hstp
          refine ⟨by rw [← hr, ← hstp], ?_⟩
          intro hlt
          simp only [List.length_cons] at hlt ⊢
          rcases rest with _ | ⟨s2, rest2⟩
          · simp at hlt
          · have := workflowLoop_length_pos runStep s2 rest2 completed
            omega
        | succ j =>
          simp only [List.getElem?_cons_succ, List.length_cons] at hr hstp ⊢
          have := ihdep j r stp hr hstp herr
          exact ⟨this.1, fun hlt => by
            have := this.2 (by omega)
            omega⟩
      · intro i r hr hfail herr
        cases i with
        | zero =>
          simp only [List.getElem?_cons_zero, Option.some_inj] at hr
          exact absurd (by rw [← hr]; rfl) herr
        | succ j =>
          simp only [List.getElem?_cons_succ, List.length_cons] at hr ⊢
          have := ihfail j r hr hfail herr
          omega

/-- C3 counterexample.  Workflow `[B (dependsOn ["X"]), C]`: `B`'s
dependency has no recorded output, `B` is recorded as the
"Dependencies not met" failure — and the later step `C` is still
executed (successfully), so the workflow does *not* stop there (its
overall success is still false).  Workflow `[A (shell, exits 1), B
(dependsOn [A])]`: `A`'s executed failure stops the loop, and `B`'s
result is never recorded at all (contrary to the claimed
"Dependencies not met" record for `B`). -/
theorem workflow_dep_gate_cex :
    ((executeWorkflow fxPure
        (mkWorkflowSkill [promptStep "B" ["X"], promptStep "C" []]) ctxEmpty).steps =
      some [depsNotMetResult (promptStep "B" ["X"]),
            { stepId := "C", stepName := "C", success := true,
              output := some (.obj (.cons "prompt" (.str "hi") .nil)),
              error := none, durationMs := 0, retries := 0 }]) ∧
    (executeWorkflow fxPure
        (mkWorkflowSkill [promptStep "B" ["X"], promptStep "C" []]) ctxEmpty).success
      = false ∧
    ((executeWorkflow fxShellFail
        (mkWorkflowSkill [shellStep "A" "exit 1", promptStep "B" ["A"]]) ctxEmpty).steps =
      some [{ stepId := "A", stepName := "A", success := false,
              output := some (.obj (.cons "stdout" (.str "")
                (.cons "stderr" (.str "") (.cons "exit_code" (.num 1) .nil)))),
              error := some "", durationMs := 0, retries := 0 }]) := by
  refine ⟨by decide, by decide, by decide⟩

/-- C3 (amended): for every workflow execution, before each step runs
every id in its `dependsOn` is checked against the recorded outputs; a
step with a missing dependency output is recorded as failed with error
"Dependencies not met" and *skipped*, execution continuing with the
later steps; if an executed step fails, the workflow stops there and
returns the partial step results; the workflow's overall success is the
conjunction of all recorded step results (hence false whenever any
recorded step failed). -/
theorem workflow_dependency_gate_amended (fx : StepEffects) (skill : Skill)
    (ctx : SkillContext) (wf : WorkflowConfig)
    (hwf : skill.config.workflow = some wf)
    (hrs : ∀ step, (executeWorkflowStep fx ctx step).error ≠ some "Dependencies not met") :
    ((executeWorkflow fx skill ctx).steps =
      some (workflowLoop (executeWorkflowStep fx ctx) wf.steps .nil).1) ∧
    ((executeWorkflow fx skill ctx).success =
      ((workflowLoop (executeWorkflowStep fx ctx) wf.steps .nil).1).all (·.success)) ∧
    ((workflowLoop (executeWorkflowStep fx ctx) wf.steps .nil).1).length ≤ wf.steps.length ∧
    (∀ i, i < ((workflowLoop (executeWorkflowStep fx ctx) wf.steps .nil).1).length →
      ((workflowLoop (executeWorkflowStep fx ctx) wf.steps .nil).1)[i]?.map
          StepResult.stepId = wf.steps[i]?.map WorkflowStep.id) ∧
    (∀ i r step, ((workflowLoop (executeWorkflowStep fx ctx) wf.steps .nil).1)[i]? = some r →
      wf.steps[i]? = some step → r.error = some "Dependencies not met" →
      r = depsNotMetResult step ∧
      (i + 1 < wf.steps.length →
        i + 1 < ((workflowLoop (executeWorkflowStep fx ctx) wf.steps .nil).1).length)) ∧
    (∀ i r, ((workflowLoop (executeWorkflowStep fx ctx) wf.steps .nil).1)[i]? = some r →
      r.success = false → r.error ≠ some "Dependencies not met" →
      ((workflowLoop (executeWorkflowStep fx ctx) wf.steps .nil).1).length = i + 1) := by
  have hspec := workflowLoop_spec (executeWorkflowStep fx ctx) hrs
    (fun step => rfl) wf.steps .nil
  refine ⟨?_, ?_, hspec.1, hspec.2.1, hspec.2.2.1, hspec.2.2.2⟩
  · simp [executeWorkflow, hwf]
  · simp [executeWorkflow, hwf]

/-- C3 witness: the amended theorem applied to a one-prompt-step
workflow under the always-succeeding effect oracle. -/
theorem workflow_dependency_gate_amended_witness :
    (executeWorkflow fxPure (mkWorkflowSkill [promptStep "C" []]) ctxEmpty).steps =
      some (workflowLoop (executeWorkflowStep fxPure ctxEmpty) [promptStep "C" []] .nil).1 :=
  (workflow_dependency_gate_amended fxPure (mkWorkflowSkill [promptStep "C" []]) ctxEmpty
    { steps := [promptStep "C" []], timeoutSecs := none, maxParallel := none } rfl
    (by intro step
        cases h : step.kind <;> simp [executeWorkflowStep, h, fxPure])).1

/-- Inserting into a list is a permutation of consing. -/
theorem insertSortedBy_perm {α : Type} (le : α → α → Bool) (x : α) (l : List α) :
    (insertSortedBy le x l).Perm (x :: l) := by
  induction l with
  | nil => exact List.Perm.refl _
  | cons y ys ih =>
    rw [insertSortedBy]
    by_cases h : le x y = true
    · rw [if_pos h]
    · rw [if_neg h]
      exact (ih.cons y).trans (List.Perm.swap x y ys)

/-- The insertion sort permutes its input. -/
theorem insertionSortBy_perm {α : Type} (le : α → α → Bool) (l : List α) :
    (insertionSortBy le l).Perm l := by
  induction l with
  | nil => exact List.Perm.refl _
  | cons x xs ih =>
    exact (insertSortedBy_perm le x (insertionSortBy le xs)).trans (ih.cons x)

/-- Insertion preserves sortedness when the order is total and
transitive. -/
theorem pairwise_insertSortedBy {α : Type} (le : α → α → Bool)
    (htot : ∀ a b, le a b = true ∨ le b a = true)
    (htrans : ∀ a b c, le a b = true → le b c = true → le a c = true)
    (x : α) (l : List α) (hl : l.Pairwise (fun a b => le a b = true)) :
    (insertSortedBy le x l).Pairwise (fun a b => le a b = true) := by
  induction l with
  | nil => simp [insertSortedBy]
  | cons y ys ih =>
    rw [List.pairwise_cons] at hl
    obtain ⟨hy, hys⟩ := hl
    rw [insertSortedBy]
    by_cases h : le x y = true
    · rw [if_pos h]
      refine List.pairwise_cons.2 ⟨?_, List.pairwise_cons.2 ⟨hy, hys⟩⟩
      intro z hz
      rcases List.mem_cons.1 hz with rfl | hz'
      · exact h
      · exact htrans x y z h (hy z hz')
    · rw [if_neg h]
      refine List.pairwise_cons.2 ⟨?_, ih hys⟩
      intro z hz
      have hz' := (insertSortedBy_perm le x ys).mem_iff.1 hz
      rcases List.mem_cons.1 hz' with rfl | hz''
      · rcases htot y z with hyx | hxy
        · exact hyx
        · exact absurd hxy h
      · exact hy z hz''

/-- The insertion sort is sorted when the order is total and
transitive. -/
theorem pairwise_insertionSortBy {α : Type} (le : α → α → Bool)
    (htot : ∀ a b, le a b = true ∨ le b a = true)
    (htrans : ∀ a b c, le a b = true → le b c = true → le a c = true)
    (l : List α) :
    (insertionSortBy le l).Pairwise (fun a b => le a b = true) := by
  induction l with
  | nil => simp [insertionSortBy]
  | cons x xs ih => exact pairwise_insertSortedBy le htot htrans x _ ih

/-- In a list whose first components are distinct, entries with equal
first components are equal. -/
theorem eq_of_mem_of_nodup_map_fst {α β : Type} {l : List (α × β)}
    (h : (l.map Prod.fst).Nodup) {a b : α × β}
    (ha : a ∈ l) (hb : b ∈ l) (hfst : a.1 = b.1) : a = b := by
  induction l with
  | nil => exact absurd ha (List.not_mem_nil a)
  | cons p rest ih =>
    rw [List.map_cons, List.nodup_cons] at h
    obtain ⟨hp, hrest⟩ := h
    rcases List.mem_cons.1 ha with rfl | ha' <;> rcases List.mem_cons.1 hb with rfl | hb'
    · rfl
    · exact absurd (hfst ▸ List.mem_map_of_mem Prod.fst hb') hp
    · exact absurd (hfst ▸ List.mem_map_of_mem Prod.fst ha') hp
    · exact ih hrest ha' hb'

/-- Core specification of `cleanup_history` on a task table with
distinct ids: afterwards at most `max_history` terminal tasks remain,
and every evicted terminal task is no younger (by completion time) than
every retained terminal task. -/
theorem cleanupHistory_spec (maxHistory : Nat) (ts : List Task)
    (hnodup : (ts.map Task.id).Nodup) :
    (((cleanupHistory maxHistory ts).filter Task.isTerminal).length ≤ maxHistory) ∧
    (∀ r ∈ ts, r.isTerminal = true → r ∉ cleanupHistory maxHistory ts →
      ∀ t ∈ cleanupHistory maxHistory ts, t.isTerminal = true →
        r.completedAt.getD 0 ≤ t.completedAt.getD 0) := by
  have htot : ∀ a b : String × Int,
      (decide (a.2 ≤ b.2)) = true ∨ (decide (b.2 ≤ a.2)) = true := by
    intro a b
    rcases le_total a.2 b.2 with h | h
    · exact Or.inl (by simpa using h)
    · exact Or.inr (by simpa using h)
  have htrans : ∀ a b c : String × Int, (decide (a.2 ≤ b.2)) = true →
      (decide (b.2 ≤ c.2)) = true → (decide (a.2 ≤ c.2)) = true := by
    intro a b c hab hbc
    simp only [decide_eq_true_iff] at hab hbc ⊢
    exact le_trans hab hbc
  classical
  set key : Task → String × Int := fun t => (t.id, t.completedAt.getD 0) with hkey
  set completed : List (String × Int) := (ts.filter Task.isTerminal).map key with hcompleted
  set sorted : List (String × Int) :=
    insertionSortBy (fun a b => a.2 ≤ b.2) completed with hsorted_def
  set excess : Nat := completed.length - maxHistory with hexcess
  set toRemove : List String := (sorted.take excess).map (·.1) with htoRemove
  have hresult : cleanupHistory maxHistory ts =
      ts.filter (fun t => !(toRemove.contains t.id)) := rfl
  have hperm : sorted.Perm completed := insertionSortBy_perm _ _
  have hpw : sorted.Pairwise (fun a b => (decide (a.2 ≤ b.2)) = true) :=
    pairwise_insertionSortBy _ htot htrans completed
  have hcross : ∀ p ∈ sorted.take excess, ∀ q ∈ sorted.drop excess,
      (decide (p.2 ≤ q.2)) = true := by
    have hsplit : sorted.take excess ++ sorted.drop excess = sorted :=
      List.take_append_drop excess sorted
    rw [← hsplit] at hpw
    exact (List.pairwise_append.1 hpw).2.2
  have hcompnodup : (completed.map Prod.fst).Nodup := by
    rw [hcompleted, List.map_map]
    have hfn : (Prod.fst ∘ key) = Task.id := by funext t; rfl
    rw [hfn]
    exact ((List.filter_sublist ts).map Task.id).nodup hnodup
  have hsortnodup : (sorted.map Prod.fst).Nodup :=
    ((hperm.map Prod.fst).nodup_iff).2 hcompnodup
  have hkeymem : ∀ r ∈ ts, r.isTerminal = true → key r ∈ sorted := by
    intro r hr hterm
    exact hperm.mem_iff.2
      (List.mem_map_of_mem key (List.mem_filter.2 ⟨hr, hterm⟩))
  have hfactA : ∀ r ∈ ts, r.isTerminal = true → r.id ∈ toRemove →
      key r ∈ sorted.take excess := by
    intro r hr hterm hid
    rw [htoRemove] at hid
    obtain ⟨p, hptake, hpfst⟩ := List.mem_map.1 hid
    have hpsorted : p ∈ sorted := List.mem_of_mem_take hptake
    have hpkey : p = key r :=
      eq_of_mem_of_nodup_map_fst hsortnodup hpsorted (hkeymem r hr hterm) hpfst
    rw [← hpkey]
    exact hptake
  have hfactB : ∀ t ∈ ts, t.isTerminal = true → t.id ∉ toRemove →
      key t ∈ sorted.drop excess := by
    intro t ht hterm hnid
    have hmem := hkeymem t ht hterm
    rw [← List.take_append_drop excess sorted] at hmem
    rcases List.mem_append.1 hmem with h | h
    · exact absurd (htoRemove ▸ List.mem_map_of_mem (·.1) h) hnid
    · exact h
  have hretained : ∀ t ∈ cleanupHistory maxHistory ts, t ∈ ts ∧ t.id ∉ toRemove := by
    intro t ht
    rw [hresult] at ht
    obtain ⟨hmem, hpred⟩ := List.mem_filter.1 ht
    refine ⟨hmem, ?_⟩
    rw [Bool.not_eq_true'] at hpred
    simpa using hpred
  constructor
  · -- retained terminal tasks fit in the bound
    have hsubset : ∀ x ∈ ((cleanupHistory maxHistory ts).filter Task.isTerminal).map key,
        x ∈ sorted.drop excess := by
      intro x hx
      obtain ⟨t, ht, rfl⟩ := List.mem_map.1 hx
      obtain ⟨htm, hterm⟩ := List.mem_filter.1 ht
      obtain ⟨hts, hnid⟩ := hretained t htm
      exact hfactB t hts hterm hnid
    have hrtnodup : (((cleanupHistory maxHistory ts).filter Task.isTerminal).map key).Nodup := by
      have hsub : ((cleanupHistory maxHistory ts).filter Task.isTerminal).Sublist ts := by
        rw [hresult]
        exact (List.filter_sublist (ts.filter _)).trans (List.filter_sublist ts)
      have hidnodup : (((cleanupHistory maxHistory ts).filter Task.isTerminal).map Task.id).Nodup :=
        (hsub.map Task.id).nodup hnodup
      have hfst : (((cleanupHistory maxHistory ts).filter Task.isTerminal).map key).map
          Prod.fst = ((cleanupHistory maxHistory ts).filter Task.isTerminal).map Task.id := by
        rw [List.map_map]
        rfl
      exact List.Nodup.of_map Prod.fst (hfst ▸ hidnodup)
    have hle := (hrtnodup.subperm (fun x hx => hsubset x hx)).length_le
    have hdroplen : (sorted.drop excess).length = sorted.length - excess :=
      List.length_drop excess sorted
    have hslen : sorted.length = completed.length := hperm.length_eq
    have hmaplen : (((cleanupHistory maxHistory ts).filter Task.isTerminal).map key).length =
        ((cleanupHistory maxHistory ts).filter Task.isTerminal).length := List.length_map _ _
    omega
  · -- eviction removes oldest first
    intro r hr hterm hrnot t ht htterm
    have hrid : r.id ∈ toRemove := by
      by_contra hnid
      refine hrnot ?_
      rw [hresult]
      refine List.mem_filter.2 ⟨hr, ?_⟩
      rw [Bool.not_eq_true']
      simpa using hnid
    obtain ⟨hts, hnid⟩ := hretained t ht
    have := hcross (key r) (hfactA r hr hterm hrid) (key t) (hfactB t hts htterm hnid)
    simpa using this

/-- C9: after any `complete_task` call on a task table with distinct
ids, at most `max_history` (default 100) terminal tasks are retained,
and the eviction removes the oldest terminal tasks by `completedAt`:
every evicted terminal task completed no later than every retained
terminal task. -/
theorem task_history_bound (maxHistory : Nat) (tasks : List Task) (taskId : String)
    (result : TaskResult) (now : Int) (hnodup : (tasks.map Task.id).Nodup) :
    (((completeTask maxHistory tasks taskId result now).filter Task.isTerminal).length ≤
      maxHistory) ∧
    (∀ r ∈ tasks.map (fun t => if t.id = taskId then t.complete result now else t),
      r.isTerminal = true → r ∉ completeTask maxHistory tasks taskId result now →
      ∀ t ∈ completeTask maxHistory tasks taskId result now, t.isTerminal = true →
        r.completedAt.getD 0 ≤ t.completedAt.getD 0) := by
  have hids : ((tasks.map (fun t => if t.id = taskId then t.complete result now else t)).map
      Task.id).Nodup := by
    rw [List.map_map]
    have hfn : (Task.id ∘ fun t => if t.id = taskId then t.complete result now else t) =
        Task.id := by
      funext t
      by_cases h : t.id = taskId <;> simp [h, Task.complete]
    rw [hfn]
    exact hnodup
  have heq : completeTask maxHistory tasks taskId result now =
      cleanupHistory maxHistory
        (tasks.map (fun t => if t.id = taskId then t.complete result now else t)) := rfl
  rw [heq]
  exact cleanupHistory_spec _ _ hids

/-- C9 witness: completing task `"b"` at time 5 in a capacity-1 history
holding task `"a"` (completed at time 1) evicts the older task and keeps
the count within the bound. -/
theorem task_history_bound_witness :
    ((completeTask 1
        [{ id := "a", name := "a", status := .completed, result := none,
           cancellable := true, createdAt := 0, startedAt := none, completedAt := some 1 },
         { id := "b", name := "b", status := .running, result := none,
           cancellable := true, createdAt := 0, startedAt := some 0, completedAt := none }]
        "b" { success := true, error := none, durationMs := 7 } 5).filter
      Task.isTerminal).length ≤ 1 :=
  (task_history_bound 1
    [{ id := "a", name := "a", status := .completed, result := none,
       cancellable := true, createdAt := 0, startedAt := none, completedAt := some 1 },
     { id := "b", name := "b", status := .running, result := none,
       cancellable := true, createdAt := 0, startedAt := some 0, completedAt := none }]
    "b" { success := true, error := none, durationMs := 7 } 5 (by decide)).1

end Opcode
